import Mathlib

/-!
Verification of the health dashboard backend (manifest-driven ingestion,
external importers, analytics layer) against its natural-language
specification.  The Rust sources under src/ are shallowly embedded:
pure computations become Lean functions; SQLite state becomes explicit
association lists of tables and rows; `f64` arithmetic is modelled over
`ℚ` (all concrete inputs used below are far from any comparison
boundary, so the rational model agrees with IEEE double evaluation);
fallible operations return `Except`/`Option`.
-/

namespace HealthDashboard

/-! ## Manifest data model (src/db.rs) -/

/-- `ColumnDefinition` from src/db.rs: one manifest column. -/
structure ColumnDefinition where
  field_name : String
  hk_identifier : Option String := none
  hk_attribute : Option String := none
  is_primary_key : Bool := false
  extraction_source : Option String := none
  aggregate : String := "raw"
  data_type : String := "TEXT"
  expression : Option String := none
  deriving Repr, DecidableEq

/-- `TableConfig` from src/db.rs. -/
structure TableConfig where
  description : Option String := none
  columns : List ColumnDefinition
  deriving Repr, DecidableEq

/-- `Settings` from src/db.rs. -/
structure Settings where
  batch_size : Option Nat := none
  timezone : Option String := none
  deriving Repr, DecidableEq

/-- `UserProfile` from src/db.rs. -/
structure UserProfile where
  max_heart_rate : Option Int := none
  resting_heart_rate : Option Int := none
  deriving Repr, DecidableEq

/-- `EcgConfig`/`RouteConfig` only contribute their target table names to
the claims below, so they are embedded by those names. -/
structure ExternalSources where
  ecgTable : Option String := none
  routesTable : Option String := none
  deriving Repr, DecidableEq

/-- `Manifest` from src/db.rs.  The Rust `HashMap<String, TableConfig>`
is embedded as an association list with distinct keys. -/
structure Manifest where
  settings : Option Settings := none
  user_profile : Option UserProfile := none
  tables : List (String × TableConfig)
  external_sources : Option ExternalSources := none
  deriving Repr, DecidableEq

/-! ## Heart-rate zones (src/db.rs, `get_workout_intensity`) -/

/-- Zone counts (Z1 recovery, Z2 aerobic, Z3 steady, Z4 threshold,
Z5 anaerobic), in the order declared in `get_workout_intensity`. -/
structure ZoneCounts where
  z1 : Nat := 0
  z2 : Nat := 0
  z3 : Nat := 0
  z4 : Nat := 0
  z5 : Nat := 0
  deriving Repr, DecidableEq

/-- Byte-wise lexicographic order on character lists, the SQLite memcmp
comparison used for TEXT columns such as `start_date`. -/
def textLtB : List Char → List Char → Bool
  | [], [] => false
  | [], _ :: _ => true
  | _ :: _, [] => false
  | a :: as, b :: bs =>
    if a.toNat < b.toNat then true
    else if b.toNat < a.toNat then false
    else textLtB as bs

/-- TEXT `<=` as evaluated by SQLite. -/
def textLe (a b : String) : Bool := !(textLtB b.data a.data)

/-- The zone `match` of `get_workout_intensity`: percentage of max heart
rate, first matching arm wins. -/
def bumpZone (z : ZoneCounts) (hr maxHr : ℚ) : ZoneCounts :=
  let pct : ℚ := hr / maxHr * 100
  if pct < 60 then { z with z1 := z.z1 + 1 }
  else if pct < 70 then { z with z2 := z.z2 + 1 }
  else if pct < 80 then { z with z3 := z.z3 + 1 }
  else if pct < 90 then { z with z4 := z.z4 + 1 }
  else { z with z5 := z.z5 + 1 }

/-- A row of the `vitals` table as read by `get_workout_intensity`:
its `heart_rate` and `start_date` columns. -/
structure VitalsRow where
  heart_rate : ℚ
  start_date : String
  deriving Repr, DecidableEq

/-- The sample query of `get_workout_intensity`:
`SELECT heart_rate FROM vitals WHERE heart_rate > 0 AND start_date >= ?
AND start_date <= ?` (TEXT comparison). -/
def intensitySamples (vitals : List VitalsRow) (wStart wEnd : String) : List ℚ :=
  (vitals.filter (fun r => decide (0 < r.heart_rate) && textLe wStart r.start_date &&
    textLe r.start_date wEnd)).map (fun r => r.heart_rate)

/-- `get_workout_intensity` (src/db.rs lines 317-363), given the workout
window already fetched by `session_id` and the `vitals` rows: counts the
in-window heart-rate samples into the five zones using
`user_profile.max_heart_rate` (default 190). -/
def getWorkoutIntensity (m : Manifest) (wStart wEnd : String)
    (vitals : List VitalsRow) : ZoneCounts × Nat :=
  let maxHr : ℚ := ((m.user_profile.bind (fun u => u.max_heart_rate)).getD 190 : Int)
  let samples := intensitySamples vitals wStart wEnd
  (samples.foldl (fun z hr => bumpZone z hr maxHr) {}, samples.length)

/-- The concrete scenario of claim C2: max HR 200, five samples inside
the workout window. -/
def c2Manifest : Manifest :=
  { user_profile := some { max_heart_rate := some 200 }, tables := [] }

/-- Vitals heart-rate samples 100, 130, 150, 170, 190 inside the window. -/
def c2Vitals : List VitalsRow :=
  [ { heart_rate := 100, start_date := "2024-01-01T10:01:00+00:00" },
    { heart_rate := 130, start_date := "2024-01-01T10:02:00+00:00" },
    { heart_rate := 150, start_date := "2024-01-01T10:03:00+00:00" },
    { heart_rate := 170, start_date := "2024-01-01T10:04:00+00:00" },
    { heart_rate := 190, start_date := "2024-01-01T10:05:00+00:00" } ]

/-! ## Database summary (src/db.rs, `get_db_summary`) -/

/-- Result value of `get_db_summary`: per-table row counts and the
database size figure. -/
structure DbSummaryOut where
  tableCounts : List (String × Int)
  sizeMb : Nat
  deriving Repr, DecidableEq

/-- The tables counted by `get_db_summary`: every manifest table, then
the configured external target tables. -/
def summaryTables (m : Manifest) : List String :=
  m.tables.map (fun p => p.1) ++
    (match m.external_sources with
     | none => []
     | some ext => ext.ecgTable.toList ++ ext.routesTable.toList)

/-- `get_db_summary` (src/db.rs lines 277-315).  `countOf` models
`SELECT COUNT(*)` against the connection pool (whatever database file
that pool uses); `fileLen` models `fs::metadata(path)` in the process
working directory, returning the file length.  Each count query uses
`unwrap_or((0,))`; the size is
`fs::metadata("health.db")?.len() / 1024 / 1024`, whose `?` propagates
the error when the file is missing. -/
def getDbSummary (countOf : String → Except String Int)
    (fileLen : String → Option Nat) (m : Manifest) : Except String DbSummaryOut :=
  let counts := (summaryTables m).map
    (fun t => (t, match countOf t with | .ok c => c | .error _ => 0))
  match fileLen "health.db" with
  | none => .error "failed to stat health.db"
  | some n => .ok { tableCounts := counts, sizeMb := n / 1024 / 1024 }

/-! ## Ingest job registry (src/main.rs, `ingest_handler`) -/

/-- `JobStatus` from src/main.rs. -/
inductive JobStatus where
  | processing (progress : Nat) (total : Option Nat)
  | completed (records : Nat)
  | failed (err : String)
  deriving Repr, DecidableEq

/-- Terminal states per the spec's job state machine. -/
def isTerminal : JobStatus → Bool
  | .processing _ _ => false
  | .completed _ => true
  | .failed _ => true

/-- Every write in `ingest_handler` is an unconditional
`jobs.insert(id, status)` on the shared map: it replaces whatever entry
is present, with no check of the current state. -/
def jobInsert (st : JobStatus) (_current : Option JobStatus) : Option JobStatus :=
  some st

/-- Applying a sequence of job-map writes for one job id, starting from
no entry. -/
def applyJobWrites (ws : List JobStatus) : Option JobStatus :=
  ws.foldl (fun cur st => jobInsert st cur) none

/-- The schedules of job-map writes that `ingest_handler` admits for one
ingestion: the handler first inserts `Processing 0` synchronously; each
progress callback then runs `tokio::spawn` on a task whose only action
is `insert (Processing count)`, and the ingestion task finally inserts
the terminal status.  The spawned tasks are not ordered with respect to
the final write (they only happen after their spawn point), so the
remaining writes may interleave in any order. -/
def IsIngestSchedule (counts : List Nat) (final : JobStatus)
    (ws : List JobStatus) : Prop :=
  ∃ rest, ws = JobStatus.processing 0 none :: rest ∧
    rest.Perm (counts.map (fun c => JobStatus.processing c none) ++ [final])

/-- A schedule in which the last progress callback's spawned write runs
after the completion write. -/
def c7Schedule : List JobStatus :=
  [JobStatus.processing 0 none, JobStatus.completed 3, JobStatus.processing 3 none]

/-! ## ECG heart-rate computation (src/importer.rs, `calculate_ecg_hr`)

The `f64` samples are modelled over `ℚ`; the literals `0.6` and `0.2`
become `3/5` and `1/5`.  The `as usize` cast truncates toward zero,
which on the guarded path (`sample_rate > 0`) is the floor. -/

/-- `samples.iter().fold(NEG_INFINITY, |a, &b| a.max(b))` on the
nonempty path of `calculate_ecg_hr`. -/
def ecgMax : List ℚ → ℚ
  | [] => 0
  | h :: t => t.foldl max h

/-- `samples.iter().sum::<f64>() / samples.len() as f64`. -/
def ecgMean (samples : List ℚ) : ℚ := samples.sum / (samples.length : ℚ)

/-- `threshold = mean + (max - mean) * 0.6`. -/
def ecgThreshold (samples : List ℚ) : ℚ :=
  ecgMean samples + (ecgMax samples - ecgMean samples) * (3 / 5)

/-- `refractory_samples = (0.2 * sample_rate) as usize`. -/
def refractorySamples (rate : ℚ) : Nat := (((1 / 5 : ℚ) * rate).floor).toNat

/-- The peak-detection loop of `calculate_ecg_hr`: mutable state
`(peak_indices, last_peak)` with `last_peak` initialised to 0, pushing
index `i` when `val > threshold && (i - last_peak > refractory_samples
|| last_peak == 0)` (`i - last_peak` is usize subtraction). -/
def ecgPeaksGo (tau : ℚ) (w : Nat) : List ℚ → Nat → Nat → List Nat → List Nat
  | [], _, _, acc => acc
  | v :: rest, i, last, acc =>
    if tau < v ∧ (w < i - last ∨ last = 0) then
      ecgPeaksGo tau w rest (i + 1) i (acc ++ [i])
    else
      ecgPeaksGo tau w rest (i + 1) last acc

/-- The peak indices produced by the scan, starting at index 0 with
`last_peak = 0` and an empty vector. -/
def ecgPeaks (samples : List ℚ) (tau : ℚ) (w : Nat) : List Nat :=
  ecgPeaksGo tau w samples 0 0 []

/-- `peak_indices.windows(2)` mapped to `diff_samples / sample_rate`. -/
def rrIntervals (rate : ℚ) : List Nat → List ℚ
  | a :: b :: rest => ((b - a : Nat) : ℚ) / rate :: rrIntervals rate (b :: rest)
  | _ => []

/-- The tail of `calculate_ecg_hr` after peak detection: return 0 for
fewer than two peaks, else `60 / avg_rr` guarded by `avg_rr > 0`. -/
def ecgHrFromPeaks (rate : ℚ) (peaks : List Nat) : ℚ :=
  if peaks.length < 2 then 0
  else if 0 < (rrIntervals rate peaks).sum / ((rrIntervals rate peaks).length : ℚ) then
    60 / ((rrIntervals rate peaks).sum / ((rrIntervals rate peaks).length : ℚ))
  else 0

/-- `calculate_ecg_hr` (src/importer.rs lines 322-362). -/
def calculateEcgHr (samples : List ℚ) (rate : ℚ) : ℚ :=
  if samples = [] ∨ rate ≤ 0 then 0
  else ecgHrFromPeaks rate (ecgPeaks samples (ecgThreshold samples) (refractorySamples rate))

/-- Peak detection as claim C6 words it: a sample above threshold is a
peak iff `i - last_peak > w` or there is NO PRIOR PEAK.  "No prior peak"
is modelled honestly with an `Option`: once any peak (index 0 included)
has been recorded, only the refractory condition applies. -/
def claimPeaksGo (tau : ℚ) (w : Nat) : List ℚ → Nat → Option Nat → List Nat
  | [], _, _ => []
  | v :: rest, i, last =>
    if decide (tau < v) &&
        (match last with | none => true | some p => decide (w < i - p)) then
      i :: claimPeaksGo tau w rest (i + 1) (some i)
    else
      claimPeaksGo tau w rest (i + 1) last

/-- The heart-rate computation exactly as claim C6 states it, differing
from the code only in the peak rule. -/
def claimEcgHr (samples : List ℚ) (rate : ℚ) : ℚ :=
  if samples = [] ∨ rate ≤ 0 then 0
  else ecgHrFromPeaks rate
    (claimPeaksGo (ecgThreshold samples) (refractorySamples rate) samples 0 none)

/-- The amended description of the reported heart rate: with peaks
`p0 < p1 < ... < pLast` (n of them), HR is 60 divided by the mean
peak-to-peak interval `(pLast - p0) / rate / (n - 1)`; 0 for fewer than
two peaks.  The `avg_rr > 0` guard of the code is provably redundant. -/
def amendedHrFromPeaks (rate : ℚ) : List Nat → ℚ
  | p0 :: p1 :: rest =>
      60 / ((((rest.getLastD p1 - p0 : Nat) : ℚ) / rate) / ((rest.length + 1 : Nat) : ℚ))
  | _ => 0

/-- Claim C6, amended: threshold and refractory window as claimed; a
sample above threshold is a peak iff `i - last_peak > w` or
`last_peak = 0` (true both when no peak has been found and when the
most recent peak sits at index 0 — the code conflates the two); HR is
60 over the mean peak-to-peak interval; 0 when fewer than two peaks or
the rate is non-positive. -/
def amendedEcgHr (samples : List ℚ) (rate : ℚ) : ℚ :=
  if rate ≤ 0 then 0
  else amendedHrFromPeaks rate
    (ecgPeaks samples (ecgThreshold samples) (refractorySamples rate))

/-! ## Date normalization (src/parser.rs, `normalize_date`)

`normalize_date` calls chrono:
`DateTime::parse_from_str(input, "%Y-%m-%d %H:%M:%S %z")`, converts the
parsed instant to UTC and renders it with `to_rfc3339`, returning the
input unchanged when parsing fails.  The chrono behaviour is embedded
faithfully on the claim's input grammar "YYYY-MM-DD HH:MM:SS ±HHMM":
an instant is its count of seconds since the Unix epoch; the civil
calendar arithmetic is the standard proleptic-Gregorian day algorithm
(the same one chrono implements); `to_rfc3339` renders
"YYYY-MM-DDTHH:MM:SS+00:00" for a UTC datetime. -/

def decimalDigits : List Char :=
  ['0', '1', '2', '3', '4', '5', '6', '7', '8', '9']

def digitOf (c : Char) : Option Nat := decimalDigits.indexOf? c

def charOfDigit (n : Nat) : Char := decimalDigits.getD n '?'

def parse2 (a b : Char) : Option Nat := do
  let x ← digitOf a
  let y ← digitOf b
  pure (10 * x + y)

def parse4 (a b c d : Char) : Option Nat := do
  let x ← digitOf a
  let y ← digitOf b
  let z ← digitOf c
  let u ← digitOf d
  pure (1000 * x + 100 * y + 10 * z + u)

def pad2 (n : Nat) : List Char := [charOfDigit (n / 10), charOfDigit (n % 10)]

def pad4 (n : Nat) : List Char :=
  [charOfDigit (n / 1000), charOfDigit (n / 100 % 10), charOfDigit (n / 10 % 10),
    charOfDigit (n % 10)]

lemma digitOf_charOfDigit (k : Nat) (hk : k < 10) : digitOf (charOfDigit k) = some k := by
  interval_cases k <;> rfl

lemma parse2_pad2 (n : Nat) (h : n < 100) :
    parse2 (charOfDigit (n / 10)) (charOfDigit (n % 10)) = some n := by
  have h1 : n / 10 < 10 := by omega
  have h2 : n % 10 < 10 := by omega
  simp [parse2, digitOf_charOfDigit _ h1, digitOf_charOfDigit _ h2]
  omega

lemma parse4_pad4 (n : Nat) (h : n < 10000) :
    parse4 (charOfDigit (n / 1000)) (charOfDigit (n / 100 % 10))
      (charOfDigit (n / 10 % 10)) (charOfDigit (n % 10)) = some n := by
  have h1 : n / 1000 < 10 := by omega
  have h2 : n / 100 % 10 < 10 := by omega
  have h3 : n / 10 % 10 < 10 := by omega
  have h4 : n % 10 < 10 := by omega
  simp [parse4, digitOf_charOfDigit _ h1, digitOf_charOfDigit _ h2,
    digitOf_charOfDigit _ h3, digitOf_charOfDigit _ h4]
  omega

def isLeapYear (y : Nat) : Bool :=
  (y % 4 == 0 && y % 100 != 0) || y % 400 == 0

def daysInMonth (y m : Nat) : Nat :=
  match m with
  | 1 => 31
  | 2 => if isLeapYear y then 29 else 28
  | 3 => 31
  | 4 => 30
  | 5 => 31
  | 6 => 30
  | 7 => 31
  | 8 => 31
  | 9 => 30
  | 10 => 31
  | 11 => 30
  | 12 => 31
  | _ => 0

structure DateFields where
  year : Nat
  month : Nat
  day : Nat
  hour : Nat
  minute : Nat
  second : Nat
  offNeg : Bool
  offH : Nat
  offM : Nat
  deriving Repr, DecidableEq

def ValidFields (f : DateFields) : Prop :=
  f.year ≤ 9999 ∧ 1 ≤ f.month ∧ f.month ≤ 12 ∧ 1 ≤ f.day ∧
    f.day ≤ daysInMonth f.year f.month ∧ f.hour < 24 ∧ f.minute < 60 ∧
    f.second < 60 ∧ f.offH < 24 ∧ f.offM < 60

def renderLocal (f : DateFields) : List Char :=
  pad4 f.year ++ '-' :: pad2 f.month ++ '-' :: pad2 f.day ++ ' ' :: pad2 f.hour ++
    ':' :: pad2 f.minute ++ ':' :: pad2 f.second ++ ' ' ::
    (if f.offNeg then '-' else '+') :: pad2 f.offH ++ pad2 f.offM

def parseLocal (s : String) : Option DateFields :=
  match s.data with
  | [y1, y2, y3, y4, '-', mo1, mo2, '-', d1, d2, ' ', h1, h2, ':', mi1, mi2, ':',
      s1, s2, ' ', sg, o1, o2, o3, o4] => do
    let y ← parse4 y1 y2 y3 y4
    let mo ← parse2 mo1 mo2
    let d ← parse2 d1 d2
    let h ← parse2 h1 h2
    let mi ← parse2 mi1 mi2
    let sec ← parse2 s1 s2
    let oh ← parse2 o1 o2
    let om ← parse2 o3 o4
    let neg ← match sg with
      | '+' => some false
      | '-' => some true
      | _ => none
    if 1 ≤ mo ∧ mo ≤ 12 ∧ 1 ≤ d ∧ d ≤ daysInMonth y mo ∧ h < 24 ∧ mi < 60 ∧
        sec < 60 ∧ oh < 24 ∧ om < 60 then
      some ⟨y, mo, d, h, mi, sec, neg, oh, om⟩
    else none
  | _ => none

def daysFromCivil (y m d : Int) : Int :=
  let yy := y - (if m ≤ 2 then 1 else 0)
  let era := Int.fdiv yy 400
  let yoe := yy - era * 400
  let mp := Int.emod (m + 9) 12
  let doy := Int.ediv (153 * mp + 2) 5 + d - 1
  let doe := yoe * 365 + Int.ediv yoe 4 - Int.ediv yoe 100 + doy
  era * 146097 + doe - 719468

def civilFromDays (z : Int) : Int × Int × Int :=
  let zz := z + 719468
  let era := Int.fdiv zz 146097
  let doe := zz - era * 146097
  let yoe := Int.ediv (doe - Int.ediv doe 1460 + Int.ediv doe 36524 - Int.ediv doe 146096) 365
  let y := yoe + era * 400
  let doy := doe - (365 * yoe + Int.ediv yoe 4 - Int.ediv yoe 100)
  let mp := Int.ediv (5 * doy + 2) 153
  let d := doy - Int.ediv (153 * mp + 2) 5 + 1
  let m := mp + (if mp < 10 then 3 else -9)
  (y + (if m ≤ 2 then 1 else 0), m, d)

def epochOfFields (f : DateFields) : Int :=
  let offset : Int := (if f.offNeg then -1 else 1) * (3600 * (f.offH : Int) + 60 * (f.offM : Int))
  86400 * daysFromCivil (f.year : Int) (f.month : Int) (f.day : Int) +
    3600 * (f.hour : Int) + 60 * (f.minute : Int) + (f.second : Int) - offset

def rfc3339OfEpoch (e : Int) : String :=
  let days := Int.fdiv e 86400
  let sod := (e - 86400 * days).toNat
  let c := civilFromDays days
  String.mk (pad4 c.1.toNat ++ '-' :: pad2 c.2.1.toNat ++ '-' :: pad2 c.2.2.toNat ++
    'T' :: pad2 (sod / 3600) ++ ':' :: pad2 (sod / 60 % 60) ++ ':' :: pad2 (sod % 60) ++
    ['+', '0', '0', ':', '0', '0'])

def normalizeDate (s : String) : String :=
  match parseLocal s with
  | some f => rfc3339OfEpoch (epochOfFields f)
  | none => s

/-! ## Content-hash uuid for raw records (src/parser.rs,
`extract_record_data`)

The SHA-256 hash (FIPS 180-4) used through the `sha2` crate is
implemented over byte lists; the incremental `Digest::update` calls of
the Rust code hash exactly the concatenation of the updated byte
strings.  The strings occurring here (table names, column names,
normalized dates, numeric values) are ASCII, so UTF-8 bytes coincide
with the character codes. -/

def rotr32 (n x : Nat) : Nat := ((x >>> n) ||| (x <<< (32 - n))) % 4294967296

def add32 (a b : Nat) : Nat := (a + b) % 4294967296

def bsig0 (x : Nat) : Nat := (rotr32 2 x) ^^^ (rotr32 13 x) ^^^ (rotr32 22 x)
def bsig1 (x : Nat) : Nat := (rotr32 6 x) ^^^ (rotr32 11 x) ^^^ (rotr32 25 x)
def ssig0 (x : Nat) : Nat := (rotr32 7 x) ^^^ (rotr32 18 x) ^^^ (x >>> 3)
def ssig1 (x : Nat) : Nat := (rotr32 17 x) ^^^ (rotr32 19 x) ^^^ (x >>> 10)
def chFn (x y z : Nat) : Nat := (x &&& y) ^^^ ((x ^^^ 4294967295) &&& z)
def majFn (x y z : Nat) : Nat := (x &&& y) ^^^ (x &&& z) ^^^ (y &&& z)

def shaK : List Nat :=
  [1116352408, 1899447441, 3049323471, 3921009573, 961987163, 1508970993,
   2453635748, 2870763221, 3624381080, 310598401, 607225278, 1426881987,
   1925078388, 2162078206, 2614888103, 3248222580, 3835390401, 4022224774,
   264347078, 604807628, 770255983, 1249150122, 1555081692, 1996064986,
   2554220882, 2821834349, 2952996808, 3210313671, 3336571891, 3584528711,
   113926993, 338241895, 666307205, 773529912, 1294757372, 1396182291,
   1695183700, 1986661051, 2177026350, 2456956037, 2730485921, 2820302411,
   3259730800, 3345764771, 3516065817, 3600352804, 4094571909, 275423344,
   430227734, 506948616, 659060556, 883997877, 958139571, 1322822218,
   1537002063, 1747873779, 1955562222, 2024104815, 2227730452, 2361852424,
   2428436474, 2756734187, 3204031479, 3329325298]

def shaInitH : List Nat :=
  [1779033703, 3144134277, 1013904242, 2773480762, 1359893119, 2600822924,
   528734635, 1541459225]

def beBytes8 (n : Nat) : List Nat :=
  (List.range 8).map (fun i => n >>> (8 * (7 - i)) % 256)

def shaPad (msg : List Nat) : List Nat :=
  let k := (119 - msg.length % 64) % 64
  msg ++ [0x80] ++ List.replicate k 0 ++ beBytes8 (8 * msg.length)

def beWord (b0 b1 b2 b3 : Nat) : Nat :=
  ((b0 <<< 24) + (b1 <<< 16) + (b2 <<< 8) + b3) % 4294967296

def blockWords (bytes : List Nat) : List Nat :=
  (List.range 16).map (fun i =>
    beWord ((bytes.drop (4 * i)).headD 0) ((bytes.drop (4 * i + 1)).headD 0)
      ((bytes.drop (4 * i + 2)).headD 0) ((bytes.drop (4 * i + 3)).headD 0))

def shaSchedule (w16 : List Nat) : List Nat :=
  (List.range 48).foldl
    (fun w _ =>
      let n := w.length
      w ++ [add32 (add32 (ssig1 (w.getD (n - 2) 0)) (w.getD (n - 7) 0))
              (add32 (ssig0 (w.getD (n - 15) 0)) (w.getD (n - 16) 0))])
    w16

def shaRound (st : List Nat) (kw : Nat × Nat) : List Nat :=
  match st with
  | [a, b, c, d, e, f, g, h] =>
    let t1 := add32 (add32 (add32 h (bsig1 e)) (add32 (chFn e f g) kw.1)) kw.2
    let t2 := add32 (bsig0 a) (majFn a b c)
    [add32 t1 t2, a, b, c, add32 d t1, e, f, g]
  | other => other

def shaCompress (h : List Nat) (blockBytes : List Nat) : List Nat :=
  let w := shaSchedule (blockWords blockBytes)
  let st := (shaK.zip w).foldl shaRound h
  List.zipWith add32 h st

def sha256Words (msg : List Nat) : List Nat :=
  let padded := shaPad msg
  (List.range (padded.length / 64)).foldl
    (fun h j => shaCompress h ((padded.drop (64 * j)).take 64)) shaInitH

def hexDigits : List Char :=
  decimalDigits ++ ['a', 'b', 'c', 'd', 'e', 'f']

def hexChar (n : Nat) : Char := hexDigits.getD n '?'

def wordHex (x : Nat) : List Char :=
  (List.range 8).map (fun i => hexChar (x >>> (4 * (7 - i)) % 16))

def sha256hex (msg : List Nat) : String :=
  String.mk ((sha256Words msg).flatMap wordHex)

def strBytes (s : String) : List Nat := s.data.map (fun c => c.toNat)

/-- The attribute loop of `extract_record_data`: one pass over the XML
attributes updating five locals; `creationDate`/`startDate`/`endDate`
are normalized at read time, later occurrences of a key overwrite
earlier ones. -/
structure RecAttrs where
  hkType : String := ""
  value : String := ""
  creation : String := ""
  start : String := ""
  endDate : String := ""
  deriving Repr, DecidableEq

def recStep (st : RecAttrs) (kv : String × String) : RecAttrs :=
  if kv.1 = "type" then { st with hkType := kv.2 }
  else if kv.1 = "value" then { st with value := kv.2 }
  else if kv.1 = "creationDate" then { st with creation := normalizeDate kv.2 }
  else if kv.1 = "startDate" then { st with start := normalizeDate kv.2 }
  else if kv.1 = "endDate" then { st with endDate := normalizeDate kv.2 }
  else st

def readRecordAttrs (attrs : List (String × String)) : RecAttrs :=
  attrs.foldl recStep {}

def mapInsert (m : List (String × String)) (k v : String) : List (String × String) :=
  if (m.lookup k).isSome then m.map (fun p => if p.1 = k then (k, v) else p)
  else m ++ [(k, v)]

structure DataPoint where
  table : String
  columns : List (String × String)
  deriving Repr, DecidableEq

def extractRecordData (attrs : List (String × String))
    (recordMap : List (String × String × String)) : Option DataPoint :=
  let st := readRecordAttrs attrs
  match recordMap.lookup st.hkType with
  | some (tableName, colName) =>
    let hashId := sha256hex (strBytes tableName ++ strBytes colName ++
      strBytes st.start ++ strBytes st.endDate ++ strBytes st.value)
    some { table := tableName,
           columns := mapInsert (mapInsert (mapInsert (mapInsert (mapInsert []
             "uuid" hashId) "creation_date" st.creation) "start_date" st.start)
             "end_date" st.endDate) colName st.value }
  | none => none

def attrLast (attrs : List (String × String)) (key : String) : String :=
  attrs.foldl (fun acc p => if p.1 = key then p.2 else acc) ""

/-- The column map built by `extract_record_data` for a mapped record:
`uuid` (the content hash), the three normalized dates, and the mapped
column set to the raw value — each via `HashMap::insert`. -/
def recordCols (t c s e v cr : String) : List (String × String) :=
  mapInsert (mapInsert (mapInsert (mapInsert (mapInsert []
    "uuid" (sha256hex (strBytes t ++ strBytes c ++ strBytes s ++ strBytes e ++ strBytes v)))
    "creation_date" cr) "start_date" s) "end_date" e) c v

/-! ## Streaming ingestion pipeline (src/parser.rs, `parse_and_ingest`)

The XML stream is embedded at the `quick_xml` event level that the
parser consumes: Record elements (empty or with skipped children),
ActivitySummary elements, and Workout elements with their child events
(the inner loop runs to the matching end tag).  SQLite tables are
association lists of rows; a row is its column/value association list;
`INSERT OR IGNORE` skips a row exactly when its primary-key value is
non-NULL and already present (SQLite permits NULL in a TEXT PRIMARY KEY
column and treats NULLs as pairwise distinct).  A transaction that
fails is dropped without commit, so the database is unchanged
(rollback). -/

/-- A row as bound by `flush_buffers`. -/
abbrev Row := List (String × String)

/-- The SQLite database: tables to rows. -/
abbrev Db := List (String × List Row)

/-- Child events inside a `<Workout>` element.  `fileRef` carries the
basename already extracted from the `path` attribute
(`Path::file_name`). -/
inductive WorkoutChild where
  | stats (statType statSum : String)
  | meta (key val : String)
  | fileRef (baseName : String)
  | otherChild
  deriving Repr, DecidableEq

/-- The outer XML events `parse_and_ingest` dispatches on. -/
inductive XEvent where
  | record (attrs : List (String × String))
  | activitySummary (attrs : List (String × String))
  | workout (attrs : List (String × String)) (children : List WorkoutChild)
  | otherEvent
  deriving Repr, DecidableEq

/-- Update the value stored under the first occurrence of key `k`, do
nothing when `k` is absent (the `if let Some(v) = map.get_mut(k)`
idiom). -/
def assocUpdate {β : Type} (k : String) (g : β → β) : List (String × β) → List (String × β)
  | [] => []
  | (n, v) :: rest => if n = k then (n, g v) :: rest else (n, v) :: assocUpdate k g rest

/-- `HashMap::insert` into the record map (later entries overwrite). -/
def rmInsert (m : List (String × String × String)) (k : String) (v : String × String) :
    List (String × String × String) :=
  if (m.lookup k).isSome then m.map (fun q => if q.1 = k then (k, v) else q)
  else m ++ [(k, v)]

/-- The precomputed `record_map` of `parse_and_ingest`: for every
manifest column with a `hk_identifier` and `extraction_source` absent
or "value", map that identifier to (table, column). -/
def buildRecordMap (m : Manifest) : List (String × String × String) :=
  m.tables.foldl (fun acc p =>
    p.2.columns.foldl (fun acc c =>
      match c.hk_identifier with
      | some hk =>
        if c.extraction_source = none ∨ c.extraction_source = some "value" then
          rmInsert acc hk (p.1, c.field_name)
        else acc
      | none => acc) acc) []

/-- The per-table buffers: `table_buffers.entry(t).or_insert(...)` runs
once per manifest column, so a table acquires a buffer iff it has at
least one column. -/
def initBuffers (m : Manifest) : List (String × List DataPoint) :=
  (m.tables.filter (fun p => ¬p.2.columns.isEmpty)).map (fun p => (p.1, []))

/-- Push a DataPoint onto its table's buffer when that buffer exists
(`if let Some(buffer) = table_buffers.get_mut(..)`). -/
def pushBuf (bufs : List (String × List DataPoint)) (dp : DataPoint) :
    List (String × List DataPoint) :=
  assocUpdate dp.table (fun l => l ++ [dp]) bufs

/-- The ActivitySummary attribute loop: for each attribute, set every
`activity_summaries` column declaring it as `hk_attribute`. -/
def summaryData (m : Manifest) (attrs : List (String × String)) : List (String × String) :=
  attrs.foldl (fun sd kv =>
    match m.tables.lookup "activity_summaries" with
    | some cfg => cfg.columns.foldl (fun sd c =>
        if c.hk_attribute = some kv.1 then mapInsert sd c.field_name kv.2 else sd) sd
    | none => sd) []

/-- The `workouts` manifest columns (the code indexes
`manifest.tables["workouts"]`; an absent entry is modelled as no
columns). -/
def workoutCols (m : Manifest) : List ColumnDefinition :=
  match m.tables.lookup "workouts" with
  | some cfg => cfg.columns
  | none => []

/-- The Workout element handler: top-level attributes feed columns with
`extraction_source = "attribute"`; the three date attributes are then
normalized and stored (overwriting any mapped column of the same name);
the child loop handles WorkoutStatistics / MetadataEntry /
FileReference. -/
def workoutData (m : Manifest) (attrs : List (String × String))
    (children : List WorkoutChild) : List (String × String) :=
  let wd := attrs.foldl (fun wd kv =>
    (workoutCols m).foldl (fun wd c =>
      if c.extraction_source = some "attribute" ∧ c.hk_attribute = some kv.1 then
        mapInsert wd c.field_name kv.2
      else wd) wd) []
  let wd := mapInsert wd "start_date" (normalizeDate (attrLast attrs "startDate"))
  let wd := mapInsert wd "end_date" (normalizeDate (attrLast attrs "endDate"))
  let wd := mapInsert wd "creation_date" (normalizeDate (attrLast attrs "creationDate"))
  children.foldl (fun wd ch =>
    match ch with
    | .stats ty sum => (workoutCols m).foldl (fun wd c =>
        if c.extraction_source = some "statistics_sum" ∧ c.hk_identifier = some ty then
          mapInsert wd c.field_name sum
        else wd) wd
    | .meta k v => (workoutCols m).foldl (fun wd c =>
        if c.extraction_source = some "metadata_value" ∧ c.hk_identifier = some k then
          mapInsert wd c.field_name v
        else wd) wd
    | .fileRef nm => (workoutCols m).foldl (fun wd c =>
        if c.extraction_source = some "route_ref" then mapInsert wd c.field_name nm
        else wd) wd
    | .otherChild => wd) wd

/-- The DataPoints an event stages (before the buffer-existence check of
the push). -/
def eventDataPoints (m : Manifest) (rm : List (String × String × String)) :
    XEvent → List DataPoint
  | .record attrs =>
    match extractRecordData attrs rm with
    | some dp => [dp]
    | none => []
  | .activitySummary attrs => [⟨"activity_summaries", summaryData m attrs⟩]
  | .workout attrs children => [⟨"workouts", workoutData m attrs children⟩]
  | .otherEvent => []

/-- The primary-key column of a manifest table: the declared
`is_primary_key` column, else the synthetic `uuid` (matching the
`CREATE TABLE` issued by `ensure_schema`). -/
def pkColOf (m : Manifest) (table : String) : String :=
  match m.tables.lookup table with
  | some cfg =>
    match cfg.columns.find? (fun c => c.is_primary_key) with
    | some c => c.field_name
    | none => "uuid"
  | none => "uuid"

/-- `INSERT OR IGNORE`: a row with a NULL (absent) primary-key value
always inserts; a duplicate non-NULL primary-key value is ignored. -/
def insertOrIgnoreRow (pk : String) (rows : List Row) (r : Row) : List Row :=
  match r.lookup pk with
  | none => rows ++ [r]
  | some v => if rows.any (fun r0 => r0.lookup pk == some v) then rows else rows ++ [r]

/-- Update table `t` of the database in place (creating it if absent;
`ensure_schema` has created all manifest tables before ingestion). -/
def dbUpdate (t : String) (g : List Row → List Row) : Db → Db
  | [] => [(t, g [])]
  | (n, rs) :: rest => if n = t then (n, g rs) :: rest else (n, rs) :: dbUpdate t g rest

/-- One `INSERT OR IGNORE INTO dp.table ...` statement. -/
def dbInsert (m : Manifest) (db : Db) (dp : DataPoint) : Db :=
  dbUpdate dp.table (fun rs => insertOrIgnoreRow (pkColOf m dp.table) rs dp.columns) db

/-- Rows of one table (empty when the table is absent). -/
def tableRows (db : Db) (t : String) : List Row := (db.lookup t).getD []

/-- Row count of one table, as `SELECT COUNT(*)` reports it. -/
def rowCount (db : Db) (t : String) : Nat := (tableRows db t).length

/-- Whether a flush would hit a failing insert (`fails table row` models
a row whose `q.execute` errors). -/
def flushError (fails : String → Row → Bool) (bufs : List (String × List DataPoint)) : Bool :=
  bufs.any (fun b => b.2.any (fun dp => fails b.1 dp.columns))

/-- Apply every buffered row, table by table, row by row — the loop
body of `flush_buffers` on the success path. -/
def applyBuffers (m : Manifest) (db : Db) (bufs : List (String × List DataPoint)) : Db :=
  bufs.foldl (fun db b => b.2.foldl (fun db dp => dbInsert m db dp) db) db

/-- `flush_buffers`: all inserts run inside one transaction; any
failing row makes the whole transaction roll back (the `?` drops the
uncommitted transaction), otherwise everything commits. -/
def flushBuffers (m : Manifest) (fails : String → Row → Bool)
    (bufs : List (String × List DataPoint)) (db : Db) : Except String Db :=
  if flushError fails bufs then .error "insert failed"
  else .ok (applyBuffers m db bufs)

/-- `records.clear()` after a successful flush. -/
def clearBufs (bufs : List (String × List DataPoint)) : List (String × List DataPoint) :=
  bufs.map (fun b => (b.1, []))

/-- `settings.batch_size` with the documented default 5000. -/
def batchSizeOf (m : Manifest) : Nat :=
  ((m.settings.bind (fun s => s.batch_size)).getD 5000)

/-- The flush trigger: any buffer at or above capacity. -/
def needsFlush (batch : Nat) (bufs : List (String × List DataPoint)) : Bool :=
  bufs.any (fun b => batch ≤ b.2.length)

/-- Total number of currently buffered DataPoints. -/
def bufTotal (bufs : List (String × List DataPoint)) : Nat :=
  (bufs.map (fun b => b.2.length)).sum

instance {ε α : Type} [DecidableEq ε] [DecidableEq α] : DecidableEq (Except ε α) := fun a b =>
  match a, b with
  | .ok x, .ok y =>
    if h : x = y then .isTrue (by rw [h]) else .isFalse (by intro hc; cases hc; exact h rfl)
  | .error x, .error y =>
    if h : x = y then .isTrue (by rw [h]) else .isFalse (by intro hc; cases hc; exact h rfl)
  | .ok _, .error _ => .isFalse (by intro hc; cases hc)
  | .error _, .ok _ => .isFalse (by intro hc; cases hc)

/-- Outcome of `parse_and_ingest`: the visible database, the sequence
of `on_progress` arguments, and the returned count or error. -/
structure IngestOut where
  db : Db
  progress : List Nat
  result : Except String Nat
  deriving Repr, DecidableEq

/-- The event loop of `parse_and_ingest`: after each event, if any
buffer reached capacity, add the batch size to the running total, flush
(propagating a flush error with `?`, which aborts the parse), and
invoke `on_progress` with the cumulative total; after the last event
(EOF) flush any residual rows without a progress callback. -/
def runEvents (m : Manifest) (rm : List (String × String × String))
    (fails : String → Row → Bool) (batch : Nat) :
    List XEvent → List (String × List DataPoint) → Nat → Db → List Nat → IngestOut
  | [], bufs, total, db, prog =>
    let cnt := bufTotal bufs
    if cnt = 0 then ⟨db, prog, .ok total⟩
    else
      match flushBuffers m fails bufs db with
      | .error e => ⟨db, prog, .error e⟩
      | .ok db2 => ⟨db2, prog, .ok (total + cnt)⟩
  | ev :: rest, bufs, total, db, prog =>
    let bufs2 := (eventDataPoints m rm ev).foldl pushBuf bufs
    if needsFlush batch bufs2 then
      match flushBuffers m fails bufs2 db with
      | .error e => ⟨db, prog, .error e⟩
      | .ok db2 =>
        runEvents m rm fails batch rest (clearBufs bufs2) (total + bufTotal bufs2) db2
          (prog ++ [total + bufTotal bufs2])
    else runEvents m rm fails batch rest bufs2 total db prog

/-- `parse_and_ingest` over a parsed event stream. -/
def parseAndIngest (m : Manifest) (fails : String → Row → Bool)
    (events : List XEvent) (db0 : Db) : IngestOut :=
  runEvents m (buildRecordMap m) fails (batchSizeOf m) events (initBuffers m) 0 db0 []

/-- A database layer in which no insert fails. -/
def noFail : String → Row → Bool := fun _ _ => false

/-- A database layer in which every insert fails. -/
def allFail : String → Row → Bool := fun _ _ => true

/-- The DataPoints of an event stream that target a table in `ks` (the
tables owning a buffer), in event order. -/
def pushableDps (m : Manifest) (rm : List (String × String × String))
    (ks : List String) (events : List XEvent) : List DataPoint :=
  events.flatMap (fun ev => (eventDataPoints m rm ev).filter
    (fun dp => decide (dp.table ∈ ks)))

/-- The DataPoints a run stages into existing buffers, in event order:
exactly the rows `parse_and_ingest` will insert. -/
def bufferedDps (m : Manifest) (events : List XEvent) : List DataPoint :=
  pushableDps m (buildRecordMap m) ((initBuffers m).map Prod.fst) events

/-- The rows of the DataPoints targeting table `t`, in order. -/
def rowsFor (t : String) (dps : List DataPoint) : List Row :=
  (dps.filter (fun dp => dp.table = t)).map (fun dp => dp.columns)

/-- Folding `INSERT OR IGNORE` of a row list into a table. -/
def tableFoldPk (pk : String) (rows0 : List Row) (rs : List Row) : List Row :=
  rs.foldl (insertOrIgnoreRow pk) rows0

/-- A one-column `workouts` manifest with no declared primary key: the
staged workout rows carry no `uuid`, so the table's TEXT PRIMARY KEY is
NULL on every insert. -/
def c1Col : ColumnDefinition :=
  { field_name := "duration", hk_attribute := some "duration",
    extraction_source := some "attribute", data_type := "REAL" }

/-- Manifest for the idempotence counterexample (default batch size). -/
def c1Manifest : Manifest := { tables := [("workouts", { columns := [c1Col] })] }

/-- One workout element. -/
def c1Events : List XEvent := [.workout [("duration", "30")] []]

/-- The freshly created schema: an empty `workouts` table. -/
def c1Db0 : Db := [("workouts", [])]

/-- The same workouts manifest with `batch_size = 1`, so every event
triggers a flush. -/
def c3Manifest : Manifest :=
  { settings := some { batch_size := some 1 },
    tables := [("workouts", { columns := [c1Col] })] }

/-- Two workouts; with batch size 1 each forms its own batch. -/
def c3Events : List XEvent :=
  [.workout [("duration", "30")] [], .workout [("duration", "45")] []]

/-- A database layer in which inserting the first workout's row (the
one with duration 30) fails. -/
def c3Fails : String → Row → Bool := fun _ r => r.lookup "duration" == some "30"

/-- Manifest and input for the progress-callback counterexample: one
workout under the default batch size 5000, so the only flush is the
residual one after EOF. -/
def c8Manifest : Manifest := { tables := [("workouts", { columns := [c1Col] })] }

/-- One workout element, left to the residual flush. -/
def c8Events : List XEvent := [.workout [("duration", "30")] []]

/-- Manifest for the progress witness: batch size 1 forces an in-loop
flush (and a progress call) after each of the two workouts. -/
def c8wManifest : Manifest :=
  { settings := some { batch_size := some 1 },
    tables := [("workouts", { columns := [c1Col] })] }

/-- A workouts manifest that does declare a primary key (`session_id`
extracted from an attribute), for the idempotence witness. -/
def c1wCol : ColumnDefinition :=
  { field_name := "session_id", hk_attribute := some "sessionId",
    extraction_source := some "attribute", is_primary_key := true, data_type := "TEXT" }

/-- Witness manifest: primary-keyed workouts table. -/
def c1wManifest : Manifest := { tables := [("workouts", { columns := [c1wCol] })] }

/-- One workout carrying its primary-key attribute. -/
def c1wEvents : List XEvent := [.workout [("sessionId", "S1")] []]

/-- Two workouts for the progress-monotonicity witness. -/
def c8wEvents : List XEvent :=
  [.workout [("duration", "30")] [], .workout [("duration", "45")] []]

/-! ## Schema reconciliation (src/db.rs, `ensure_schema`)

The database schema is a map from table name to its column list (name,
declared type, optional GENERATED ALWAYS AS expression) and its rows.
`CREATE TABLE IF NOT EXISTS` leaves an existing table untouched;
`ALTER TABLE ... ADD COLUMN` appends one column and preserves all rows;
`PRAGMA table_info` introspects the column names once, before the
column loop. -/



structure SchemaColumn where
  name : String
  ddlType : String
  generated : Option String
  deriving Repr, DecidableEq

structure TableState where
  columns : List SchemaColumn
  rows : List Row
  deriving Repr, DecidableEq

abbrev SchemaDb := List (String × TableState)

def baseCols (pkName pkType : String) : List SchemaColumn :=
  [⟨pkName, pkType, none⟩, ⟨"creation_date", "TEXT", none⟩, ⟨"start_date", "TEXT", none⟩,
    ⟨"end_date", "TEXT", none⟩]

def createIfNotExists (t : String) (cols : List SchemaColumn) (db : SchemaDb) : SchemaDb :=
  if (db.lookup t).isSome then db else db ++ [(t, ⟨cols, []⟩)]

def alterAddColumn (t : String) (c : SchemaColumn) (db : SchemaDb) : SchemaDb :=
  assocUpdate t (fun st => ⟨st.columns ++ [c], st.rows⟩) db

def mkSchemaCol (c : ColumnDefinition) : SchemaColumn :=
  ⟨c.field_name, c.data_type, c.expression⟩

def pkOf (cfg : TableConfig) : String × String :=
  match cfg.columns.find? (fun c => c.is_primary_key) with
  | some c => (c.field_name, c.data_type)
  | none => ("uuid", "TEXT")

def ensureSchemaTable (t : String) (cfg : TableConfig) (db : SchemaDb) : SchemaDb :=
  let db1 := createIfNotExists t (baseCols (pkOf cfg).1 (pkOf cfg).2) db
  let existing := (((db1.lookup t).getD (⟨[], []⟩ : TableState)).columns).map (fun c => c.name)
  cfg.columns.foldl (fun (db : SchemaDb) (c : ColumnDefinition) =>
    if c.field_name ∈ existing then db else alterAddColumn t (mkSchemaCol c) db) db1

def ensureSchema (m : Manifest) (db : SchemaDb) : SchemaDb :=
  m.tables.foldl (fun db p => ensureSchemaTable p.1 p.2 db) db

/-- Manifest for the schema-reconciliation witness: one mapped column
already present and one new virtual generated column. -/
def c9Cfg : TableConfig :=
  { columns := [
      { field_name := "heart_rate", hk_identifier := some "HR", data_type := "REAL" },
      { field_name := "hr_zone", data_type := "REAL",
        expression := some "heart_rate / 2.0" } ] }

/-- One-table manifest for the witness. -/
def c9M : Manifest := { tables := [("vitals", c9Cfg)] }

/-- The pre-existing table: base columns, the already-present
`heart_rate`, a `legacy` column absent from the manifest, and one data
row. -/
def c9St : TableState :=
  { columns := [⟨"uuid", "TEXT", none⟩, ⟨"creation_date", "TEXT", none⟩,
      ⟨"start_date", "TEXT", none⟩, ⟨"end_date", "TEXT", none⟩,
      ⟨"heart_rate", "REAL", none⟩, ⟨"legacy", "TEXT", none⟩],
    rows := [[("uuid", "u1"), ("heart_rate", "60")]] }

/-- The pre-existing database for the witness. -/
def c9Db0 : SchemaDb := [("vitals", c9St)]

/-! ## Theorems -/

/-- Claim C2 counterexample: with `max_heart_rate = 200` and in-window
heart-rate samples 100, 130, 150, 170, 190, `get_workout_intensity`
computes Z1=1, Z2=1, Z3=1, Z4=1, Z5=1 — not the claimed
Z1=1, Z2=0, Z3=1, Z4=1, Z5=2 (the 130 sample is 65% of max, zone 2, and
only the 190 sample reaches 90%). -/
theorem c2_zone_counts_counterexample :
    (getWorkoutIntensity c2Manifest "2024-01-01T10:00:00+00:00"
        "2024-01-01T11:00:00+00:00" c2Vitals).1
      ≠ { z1 := 1, z2 := 0, z3 := 1, z4 := 1, z5 := 2 } := by
  have hs : intensitySamples c2Vitals "2024-01-01T10:00:00+00:00"
      "2024-01-01T11:00:00+00:00" = [100, 130, 150, 170, 190] := by decide
  unfold getWorkoutIntensity
  rw [hs]
  norm_num [bumpZone, c2Manifest]

/-- Claim C2, amended: with `max_heart_rate = 200` and in-window
heart-rate samples 100, 130, 150, 170, 190 (50%, 65%, 75%, 85%, 95% of
max), `get_workout_intensity` returns zone counts
Z1=1, Z2=1, Z3=1, Z4=1, Z5=1, assigning zones by percentage of max heart
rate as Z1 <60, Z2 60-70, Z3 70-80, Z4 80-90, Z5 >=90. -/
theorem c2_zone_counts :
    getWorkoutIntensity c2Manifest "2024-01-01T10:00:00+00:00"
        "2024-01-01T11:00:00+00:00" c2Vitals
      = ({ z1 := 1, z2 := 1, z3 := 1, z4 := 1, z5 := 1 }, 5) := by
  have hs : intensitySamples c2Vitals "2024-01-01T10:00:00+00:00"
      "2024-01-01T11:00:00+00:00" = [100, 130, 150, 170, 190] := by decide
  unfold getWorkoutIntensity
  rw [hs]
  norm_num [bumpZone, c2Manifest]

/-- Claim C10: `get_db_summary` derives its size figure from the
hard-coded path "health.db" (length floor-divided by 1024 twice), so it
errors exactly when no such file exists in the working directory, no
matter which database the pool serves (`countOf` is arbitrary here);
per-table count failures are silently reported as 0. -/
theorem c10_db_summary (countOf : String → Except String Int)
    (fileLen : String → Option Nat) (m : Manifest) :
    (fileLen "health.db" = none →
      ∃ e, getDbSummary countOf fileLen m = .error e) ∧
    (∀ n, fileLen "health.db" = some n →
      getDbSummary countOf fileLen m = .ok
        { tableCounts := (summaryTables m).map
            (fun t => (t, match countOf t with | .ok c => c | .error _ => 0)),
          sizeMb := n / 1024 / 1024 }) := by
  constructor
  · intro h
    exact ⟨"failed to stat health.db", by simp [getDbSummary, h]⟩
  · intro n h
    simp [getDbSummary, h]

/-- Claim C10 witness: a run with `health.db` absent errors even though
every count succeeds; a run with `health.db` of 3 MiB + 1 byte reports
size 3 and count 0 for a failing table. -/
theorem c10_db_summary_witness :
    ((fun _ : String => (none : Option Nat)) "health.db" = none ∧
      ∃ e, getDbSummary (fun _ => .ok 7) (fun _ => none)
        { tables := [("vitals", { columns := [] })] } = .error e) ∧
    ((fun _ : String => some 3145729) "health.db" = some 3145729 ∧
      getDbSummary (fun _ => .error "no such table") (fun _ => some 3145729)
        { tables := [("vitals", { columns := [] })] } = .ok
          { tableCounts := [("vitals", 0)], sizeMb := 3 }) :=
  ⟨⟨rfl, (c10_db_summary (fun _ => .ok 7) (fun _ => none)
      { tables := [("vitals", { columns := [] })] }).1 rfl⟩,
   ⟨rfl, by
      have h := (c10_db_summary (fun _ => .error "no such table")
        (fun _ => some 3145729) { tables := [("vitals", { columns := [] })] }).2
        3145729 rfl
      simpa [summaryTables] using h⟩⟩

/-- Claim C7: the job map does not enforce terminal-state immutability.
The code admits the schedule `c7Schedule` (initial `Processing 0`, then
the completion write, then a still-pending spawned progress write): after
its first two writes the entry is terminal (`Completed 3`), yet the full
schedule overwrites it back to the non-terminal `Processing 3`.  Every
write is an unconditional `HashMap::insert`, so a pending
progress-callback task can overwrite a terminal entry. -/
theorem c7_terminal_state_overwritten :
    IsIngestSchedule [3] (JobStatus.completed 3) c7Schedule ∧
    applyJobWrites (c7Schedule.take 2) = some (JobStatus.completed 3) ∧
    isTerminal (JobStatus.completed 3) = true ∧
    applyJobWrites c7Schedule = some (JobStatus.processing 3 none) ∧
    isTerminal (JobStatus.processing 3 none) = false := by
  refine ⟨⟨[JobStatus.completed 3, JobStatus.processing 3 none], rfl, ?_⟩,
    rfl, rfl, rfl, rfl⟩
  exact List.Perm.swap (JobStatus.processing 3 none) (JobStatus.completed 3) []

-- Helper lemmas for the ECG claim.

lemma chain_le_getLastD : ∀ (m : List Nat) (b : Nat),
    List.Chain' (· < ·) (b :: m) → b ≤ m.getLastD b := by
  intro m
  induction m with
  | nil => intro b _; rfl
  | cons c m' ih =>
    intro b h
    rw [List.chain'_cons] at h
    rw [List.getLastD_cons]
    exact le_trans (le_of_lt h.1) (ih c h.2)

lemma rrIntervals_length (rate : ℚ) : ∀ l : List Nat,
    (rrIntervals rate l).length = l.length - 1 := by
  intro l
  induction l with
  | nil => simp [rrIntervals]
  | cons a t ih =>
    cases t with
    | nil => simp [rrIntervals]
    | cons b rest =>
      simp only [rrIntervals, List.length_cons] at ih ⊢
      omega

lemma rrIntervals_sum (rate : ℚ) : ∀ (l : List Nat) (a : Nat),
    List.Chain' (· < ·) (a :: l) →
    (rrIntervals rate (a :: l)).sum = ((l.getLastD a - a : Nat) : ℚ) / rate := by
  intro l
  induction l with
  | nil => intro a _; simp [rrIntervals]
  | cons b rest ih =>
    intro a h
    rw [List.chain'_cons] at h
    have hab : a < b := h.1
    have hbg : b ≤ rest.getLastD b := chain_le_getLastD rest b h.2
    have hsum := ih b h.2
    simp only [rrIntervals, List.sum_cons, hsum, List.getLastD_cons]
    rw [div_add_div_same]
    congr 1
    have h1 : a ≤ b := le_of_lt hab
    have h2 : a ≤ rest.getLastD b := le_trans h1 hbg
    push_cast [Nat.cast_sub h1, Nat.cast_sub hbg, Nat.cast_sub h2]
    ring

lemma ecgPeaksGo_chain (tau : ℚ) (w : Nat) : ∀ (l : List ℚ) (i last : Nat) (acc : List Nat),
    (∀ x ∈ acc, x < i) → List.Chain' (· < ·) acc →
    List.Chain' (· < ·) (ecgPeaksGo tau w l i last acc) := by
  intro l
  induction l with
  | nil => intro i last acc _ hch; simpa [ecgPeaksGo] using hch
  | cons v rest ih =>
    intro i last acc hlt hch
    rw [ecgPeaksGo]
    split
    · apply ih (i + 1) i (acc ++ [i])
      · intro x hx
        rcases List.mem_append.1 hx with h | h
        · exact Nat.lt_succ_of_lt (hlt x h)
        · simp at h; omega
      · rw [List.chain'_append]
        refine ⟨hch, List.chain'_singleton i, ?_⟩
        intro x hx y hy
        simp at hy
        subst hy
        exact hlt x (List.mem_of_mem_getLast? hx)
    · apply ih (i + 1) last acc
      · intro x hx
        exact Nat.lt_succ_of_lt (hlt x hx)
      · exact hch

lemma hrFromPeaks_eq (rate : ℚ) (hrpos : 0 < rate) :
    ∀ peaks : List Nat, List.Chain' (· < ·) peaks →
    ecgHrFromPeaks rate peaks = amendedHrFromPeaks rate peaks := by
  intro peaks hchain
  match peaks with
  | [] => simp [ecgHrFromPeaks, amendedHrFromPeaks]
  | [p] => simp [ecgHrFromPeaks, amendedHrFromPeaks]
  | p0 :: p1 :: rest =>
    rw [ecgHrFromPeaks, if_neg (by simp)]
    have hlen : (rrIntervals rate (p0 :: p1 :: rest)).length = rest.length + 1 := by
      rw [rrIntervals_length]
      simp
    have hsum := rrIntervals_sum rate (p1 :: rest) p0 hchain
    rw [List.getLastD_cons] at hsum
    have hp01 : p0 < p1 := (List.chain'_cons.1 hchain).1
    have hp1g : p1 ≤ rest.getLastD p1 := chain_le_getLastD rest p1 (List.chain'_cons.1 hchain).2
    have hglpos : (0 : ℚ) < ((rest.getLastD p1 - p0 : Nat) : ℚ) := by
      have : 0 < rest.getLastD p1 - p0 := by omega
      exact_mod_cast this
    have havgpos : 0 < (rrIntervals rate (p0 :: p1 :: rest)).sum /
        (((rrIntervals rate (p0 :: p1 :: rest)).length : Nat) : ℚ) := by
      rw [hsum, hlen]
      apply div_pos (div_pos hglpos hrpos)
      positivity
    rw [if_pos havgpos, hsum, hlen, amendedHrFromPeaks]

/-- Claim C6 counterexample: on samples 10, 10, 0, 0 at 10 Hz the
threshold is 8 and the window is 2, so the code takes index 0 as a peak
and — because `last_peak` stays 0 — also index 1, one sample later,
inside the refractory window; it reports 600 bpm.  Under the claim's
rule ("a peak iff `i - last_peak > w` or there is no prior peak") index
1 is not a peak, leaving a single peak and a result of 0. -/
theorem c6_ecg_hr_counterexample :
    calculateEcgHr [10, 10, 0, 0] 10 = 600 ∧
    claimEcgHr [10, 10, 0, 0] 10 = 0 ∧ (600 : ℚ) ≠ 0 := by
  refine ⟨?_, ?_, by norm_num⟩
  · rw [calculateEcgHr, if_neg (by decide)]
    norm_num [ecgMax, ecgMean, ecgThreshold, refractorySamples, ecgPeaks, ecgPeaksGo,
      ecgHrFromPeaks, rrIntervals]
  · rw [claimEcgHr, if_neg (by decide)]
    norm_num [ecgMax, ecgMean, ecgThreshold, refractorySamples, claimPeaksGo,
      ecgHrFromPeaks, rrIntervals]

/-- Claim C6, amended: `calculate_ecg_hr` uses threshold
`mean + 0.6 (max - mean)` and refractory window `floor(0.2 rate)`, and
classifies an above-threshold sample at `i` as a peak iff
`i - last_peak > w` or `last_peak = 0` (which also holds when the prior
peak sits at index 0); the reported HR is 60 over the mean peak-to-peak
interval `(pLast - p0) / rate / (n - 1)`, and 0 whenever fewer than two
peaks are found or the rate is non-positive (the code's extra
`avg_rr > 0` guard is redundant since peak indices strictly increase). -/
theorem c6_ecg_hr_amended : ∀ (samples : List ℚ) (rate : ℚ),
    calculateEcgHr samples rate = amendedEcgHr samples rate := by
  intro samples rate
  by_cases hr0 : rate ≤ 0
  · simp [calculateEcgHr, amendedEcgHr, hr0]
  · have hrpos : 0 < rate := lt_of_not_le hr0
    by_cases hs : samples = []
    · subst hs
      simp [calculateEcgHr, amendedEcgHr, hr0, ecgPeaks, ecgPeaksGo,
        ecgHrFromPeaks, amendedHrFromPeaks, rrIntervals]
    · rw [calculateEcgHr, if_neg (by simp [hs, hr0]), amendedEcgHr, if_neg hr0]
      exact hrFromPeaks_eq rate hrpos _
        (ecgPeaksGo_chain _ _ samples 0 0 [] (by simp) (by simp))

-- Helper lemmas for the date-normalization claim.

lemma daysInMonth_le (y m : Nat) : daysInMonth y m ≤ 31 := by
  unfold daysInMonth
  split <;> first | omega | (split <;> omega)

lemma parseLocal_renderLocal (f : DateFields) (hv : ValidFields f) :
    parseLocal (String.mk (renderLocal f)) = some f := by
  obtain ⟨hy, hmo1, hmo2, hd1, hd2, hh, hmi, hs, hoh, hom⟩ := hv
  have hy4 : f.year < 10000 := by omega
  have hmo : f.month < 100 := by omega
  have hdd : f.day < 100 := by
    have := daysInMonth_le f.year f.month
    omega
  have hh2 : f.hour < 100 := by omega
  have hmi2 : f.minute < 100 := by omega
  have hs2 : f.second < 100 := by omega
  have hoh2 : f.offH < 100 := by omega
  have hom2 : f.offM < 100 := by omega
  cases hneg : f.offNeg with
  | false =>
    simp only [renderLocal, pad4, pad2, hneg, if_false, Bool.false_eq_true,
      List.cons_append, List.nil_append, List.append_assoc]
    simp [parseLocal, parse4_pad4 _ hy4, parse2_pad2 _ hmo, parse2_pad2 _ hdd,
      parse2_pad2 _ hh2, parse2_pad2 _ hmi2, parse2_pad2 _ hs2,
      parse2_pad2 _ hoh2, parse2_pad2 _ hom2, hmo1, hmo2, hd1, hd2, hh, hmi, hs,
      hoh, hom]
    rw [← hneg]
  | true =>
    simp only [renderLocal, pad4, pad2, hneg, if_true,
      List.cons_append, List.nil_append, List.append_assoc]
    simp [parseLocal, parse4_pad4 _ hy4, parse2_pad2 _ hmo, parse2_pad2 _ hdd,
      parse2_pad2 _ hh2, parse2_pad2 _ hmi2, parse2_pad2 _ hs2,
      parse2_pad2 _ hoh2, parse2_pad2 _ hom2, hmo1, hmo2, hd1, hd2, hh, hmi, hs,
      hoh, hom]
    rw [← hneg]

lemma parseLocal_space10 (s : String) (f : DateFields)
    (h : parseLocal s = some f) : s.data.get? 10 = some ' ' := by
  unfold parseLocal at h
  split at h
  · rename_i heq
    rw [heq]
    rfl
  · exact absurd h (by simp)

/-- Claim C5: for every well-formed "YYYY-MM-DD HH:MM:SS ±HHMM" date
attribute the stored value is the RFC3339 rendering of that instant in
UTC; concretely "2024-01-01 10:00:00 -0500" is stored as
"2024-01-01T15:00:00+00:00"; and any input already in RFC3339 form
(with 'T' at index 10, where the accepted format requires a space) fails
the parse and is stored unchanged. -/
theorem c5_normalize_date :
    (∀ f : DateFields, ValidFields f →
      normalizeDate (String.mk (renderLocal f)) = rfc3339OfEpoch (epochOfFields f)) ∧
    normalizeDate "2024-01-01 10:00:00 -0500" = "2024-01-01T15:00:00+00:00" ∧
    (∀ s : String, s.data.get? 10 = some 'T' → normalizeDate s = s) := by
  refine ⟨?_, by decide, ?_⟩
  · intro f hv
    rw [normalizeDate, parseLocal_renderLocal f hv]
  · intro s hT
    rw [normalizeDate]
    cases hp : parseLocal s with
    | none => rfl
    | some f =>
      have := parseLocal_space10 s f hp
      rw [hT] at this
      exact absurd this (by decide)

/-- Claim C5 witness: the general statement applied to the concrete
fields of "2024-01-01 10:00:00 -0500" and to the concrete RFC3339 string
"2024-01-01T15:00:00+00:00". -/
theorem c5_normalize_date_witness :
    (ValidFields ⟨2024, 1, 1, 10, 0, 0, true, 5, 0⟩ ∧
      normalizeDate (String.mk (renderLocal ⟨2024, 1, 1, 10, 0, 0, true, 5, 0⟩)) =
        rfc3339OfEpoch (epochOfFields ⟨2024, 1, 1, 10, 0, 0, true, 5, 0⟩)) ∧
    ("2024-01-01T15:00:00+00:00".data.get? 10 = some 'T' ∧
      normalizeDate "2024-01-01T15:00:00+00:00" = "2024-01-01T15:00:00+00:00") :=
  ⟨⟨by unfold ValidFields; decide,
    c5_normalize_date.1 ⟨2024, 1, 1, 10, 0, 0, true, 5, 0⟩
      (by unfold ValidFields; decide)⟩,
   ⟨by decide, c5_normalize_date.2.2 "2024-01-01T15:00:00+00:00" (by decide)⟩⟩

-- Helper lemmas for the record-uuid claim.

-- generic single-key fold with post-processing g
lemma fold_attr_comp (key : String) (g : String → String) :
    ∀ (attrs : List (String × String)) (d : String),
    attrs.foldl (fun acc (p : String × String) => if p.1 = key then g p.2 else acc) (g d)
      = g (attrs.foldl (fun acc (p : String × String) => if p.1 = key then p.2 else acc) d) := by
  intro attrs
  induction attrs with
  | nil => intro d; rfl
  | cons p rest ih =>
    intro d
    by_cases h : p.1 = key
    · simp only [List.foldl_cons, if_pos h]
      exact ih p.2
    · simp only [List.foldl_cons, if_neg h]
      exact ih d

lemma readRecordAttrs_go : ∀ (attrs : List (String × String)) (st : RecAttrs),
    attrs.foldl recStep st =
      ⟨attrs.foldl (fun acc (p : String × String) => if p.1 = "type" then p.2 else acc) st.hkType,
       attrs.foldl (fun acc (p : String × String) => if p.1 = "value" then p.2 else acc) st.value,
       attrs.foldl (fun acc (p : String × String) => if p.1 = "creationDate" then normalizeDate p.2 else acc) st.creation,
       attrs.foldl (fun acc (p : String × String) => if p.1 = "startDate" then normalizeDate p.2 else acc) st.start,
       attrs.foldl (fun acc (p : String × String) => if p.1 = "endDate" then normalizeDate p.2 else acc) st.endDate⟩ := by
  intro attrs
  induction attrs with
  | nil => intro st; rfl
  | cons p rest ih =>
    intro st
    simp only [List.foldl_cons]
    by_cases h1 : p.1 = "type"
    · rw [show recStep st p = { st with hkType := p.2 } by simp [recStep, h1]]
      simp only [ih, h1, if_pos]
      simp [h1]
    · by_cases h2 : p.1 = "value"
      · rw [show recStep st p = { st with value := p.2 } by simp [recStep, h1, h2]]
        simp [ih, h1, h2]
      · by_cases h3 : p.1 = "creationDate"
        · rw [show recStep st p = { st with creation := normalizeDate p.2 } by
            simp [recStep, h1, h2, h3]]
          simp [ih, h1, h2, h3]
        · by_cases h4 : p.1 = "startDate"
          · rw [show recStep st p = { st with start := normalizeDate p.2 } by
              simp [recStep, h1, h2, h3, h4]]
            simp [ih, h1, h2, h3, h4]
          · by_cases h5 : p.1 = "endDate"
            · rw [show recStep st p = { st with endDate := normalizeDate p.2 } by
                simp [recStep, h1, h2, h3, h4, h5]]
              simp [ih, h1, h2, h3, h4, h5]
            · rw [show recStep st p = st by simp [recStep, h1, h2, h3, h4, h5]]
              simp [ih, h1, h2, h3, h4, h5]

lemma normalizeDate_empty : normalizeDate "" = "" := rfl

lemma readRecordAttrs_eq (attrs : List (String × String)) :
    readRecordAttrs attrs =
      ⟨attrLast attrs "type", attrLast attrs "value",
       normalizeDate (attrLast attrs "creationDate"),
       normalizeDate (attrLast attrs "startDate"),
       normalizeDate (attrLast attrs "endDate")⟩ := by
  rw [readRecordAttrs, readRecordAttrs_go]
  have hc := fold_attr_comp "creationDate" normalizeDate attrs ""
  have hs := fold_attr_comp "startDate" normalizeDate attrs ""
  have he := fold_attr_comp "endDate" normalizeDate attrs ""
  rw [normalizeDate_empty] at hc hs he
  simp only [attrLast]
  rw [← hc, ← hs, ← he]

lemma shaRound_length (st : List Nat) (kw : Nat × Nat) (h : st.length = 8) :
    (shaRound st kw).length = 8 := by
  unfold shaRound
  split
  · rfl
  · exact h

lemma shaCompress_length (h : List Nat) (blockBytes : List Nat) (hl : h.length = 8) :
    (shaCompress h blockBytes).length = 8 := by
  unfold shaCompress
  have hst : ((shaK.zip (shaSchedule (blockWords blockBytes))).foldl shaRound h).length = 8 := by
    generalize shaK.zip (shaSchedule (blockWords blockBytes)) = pairs
    induction pairs generalizing h with
    | nil => simpa
    | cons p rest ih =>
      simp only [List.foldl_cons]
      exact ih (shaRound h p) (shaRound_length h p hl)
  simp [List.length_zipWith, hl, hst]

lemma foldl_length8 {α : Type} (g : List Nat → α → List Nat)
    (hg : ∀ h a, h.length = 8 → (g h a).length = 8) :
    ∀ (l : List α) (h0 : List Nat), h0.length = 8 → (l.foldl g h0).length = 8 := by
  intro l
  induction l with
  | nil => intro h0 h; simpa
  | cons a rest ih =>
    intro h0 h
    simp only [List.foldl_cons]
    exact ih (g h0 a) (hg h0 a h)

lemma sha256Words_length (msg : List Nat) : (sha256Words msg).length = 8 := by
  unfold sha256Words
  exact foldl_length8 _ (fun h a hl => shaCompress_length h _ hl) _ shaInitH rfl

lemma wordHex_length (x : Nat) : (wordHex x).length = 8 := by
  simp [wordHex]

lemma sha256hex_length (msg : List Nat) : (sha256hex msg).length = 64 := by
  show (String.mk ((sha256Words msg).flatMap wordHex)).length = 64
  have h8 := sha256Words_length msg
  have hmap : List.map (List.length ∘ wordHex) (sha256Words msg)
      = List.replicate (sha256Words msg).length 8 := by
    rw [show (List.length ∘ wordHex) = (Function.const Nat 8) by
      funext x; simp [wordHex]]
    exact List.map_const _ 8
  simp [String.length, List.length_flatMap, hmap, h8, List.sum_replicate]

lemma lookup_map_replace (k' v k : String) (h : k ≠ k') : ∀ m : List (String × String),
    (m.map (fun p => if p.1 = k' then (k', v) else p)).lookup k = m.lookup k := by
  have hb : (k == k') = false := beq_eq_false_iff_ne.mpr h
  intro m
  induction m with
  | nil => rfl
  | cons p rest ih =>
    by_cases hp : p.1 = k'
    · rw [List.map_cons, if_pos hp]
      have hbp : (k == p.1) = false := by rw [hp]; exact hb
      simp [List.lookup, hb, hbp, ih]
    · rw [List.map_cons, if_neg hp]
      cases hkk : (k == p.1) <;> simp [List.lookup, hkk, ih]

lemma lookup_append_single (k' v k : String) (h : k ≠ k') : ∀ m : List (String × String),
    (m ++ [(k', v)]).lookup k = m.lookup k := by
  have hb : (k == k') = false := beq_eq_false_iff_ne.mpr h
  intro m
  induction m with
  | nil => simp [List.lookup, hb]
  | cons p rest ih =>
    simp [List.lookup, ih]

lemma lookup_mapInsert_ne (m : List (String × String)) (k' v k : String) (h : k ≠ k') :
    (mapInsert m k' v).lookup k = m.lookup k := by
  unfold mapInsert
  split
  · exact lookup_map_replace k' v k h m
  · exact lookup_append_single k' v k h m

lemma uuid_lookup_cols (t c : String) (hc : c ≠ "uuid") (s e v cr : String) :
    (recordCols t c s e v cr).lookup "uuid"
    = some (sha256hex (strBytes t ++ strBytes c ++ strBytes s ++ strBytes e ++ strBytes v)) := by
  unfold recordCols
  rw [lookup_mapInsert_ne _ c _ _ (Ne.symm hc),
    lookup_mapInsert_ne _ "end_date" _ _ (by decide),
    lookup_mapInsert_ne _ "start_date" _ _ (by decide),
    lookup_mapInsert_ne _ "creation_date" _ _ (by decide)]
  rfl

/-- Claim C4, amended: for a Record whose (last) `type` attribute is
mapped by the manifest to `(t, c)` with `c` not itself named "uuid",
the staged row's `uuid` is the lowercase hex SHA-256 of table name,
column name, normalized start date, normalized end date and raw value,
concatenated; consequently any two records with the same
`(table, column, start, end, value)` tuple receive the same uuid. -/
theorem c4_record_uuid_amended (attrs : List (String × String)) (rm : List (String × String × String))
    (t c : String) (hmap : rm.lookup (attrLast attrs "type") = some (t, c))
    (hc : c ≠ "uuid") :
    ∃ dp, extractRecordData attrs rm = some dp ∧ dp.table = t ∧
      dp.columns.lookup "uuid" = some (sha256hex (strBytes t ++ strBytes c ++
        strBytes (normalizeDate (attrLast attrs "startDate")) ++
        strBytes (normalizeDate (attrLast attrs "endDate")) ++
        strBytes (attrLast attrs "value"))) ∧
      (∀ attrs2 : List (String × String),
        rm.lookup (attrLast attrs2 "type") = some (t, c) →
        normalizeDate (attrLast attrs2 "startDate") = normalizeDate (attrLast attrs "startDate") →
        normalizeDate (attrLast attrs2 "endDate") = normalizeDate (attrLast attrs "endDate") →
        attrLast attrs2 "value" = attrLast attrs "value" →
        ∃ dp2, extractRecordData attrs2 rm = some dp2 ∧
          dp2.columns.lookup "uuid" = dp.columns.lookup "uuid") := by
  refine ⟨{ table := t, columns := (recordCols t c
      (normalizeDate (attrLast attrs "startDate")) (normalizeDate (attrLast attrs "endDate"))
      (attrLast attrs "value") (normalizeDate (attrLast attrs "creationDate"))) },
    ?_, rfl, ?_, ?_⟩
  · simp only [extractRecordData, readRecordAttrs_eq attrs, hmap, recordCols]
  · exact uuid_lookup_cols t c hc _ _ _ _
  · intro attrs2 h2 hs he hv
    refine ⟨{ table := t, columns := (recordCols t c
        (normalizeDate (attrLast attrs2 "startDate")) (normalizeDate (attrLast attrs2 "endDate"))
        (attrLast attrs2 "value") (normalizeDate (attrLast attrs2 "creationDate"))) },
      ?_, ?_⟩
    · simp only [extractRecordData, readRecordAttrs_eq attrs2, h2, recordCols]
    · show (recordCols t c (normalizeDate (attrLast attrs2 "startDate"))
          (normalizeDate (attrLast attrs2 "endDate")) (attrLast attrs2 "value")
          (normalizeDate (attrLast attrs2 "creationDate"))).lookup "uuid"
        = (recordCols t c (normalizeDate (attrLast attrs "startDate"))
          (normalizeDate (attrLast attrs "endDate")) (attrLast attrs "value")
          (normalizeDate (attrLast attrs "creationDate"))).lookup "uuid"
      rw [uuid_lookup_cols t c hc, uuid_lookup_cols t c hc, hs, he, hv]

/-- Claim C4 counterexample: with a manifest that maps record type "X"
to a column literally named "uuid" in table `vitals`, the final
`columns.insert(col_name, value)` of `extract_record_data` overwrites
the content hash, so the staged `uuid` is the raw value "60" and no
SHA-256 hex digest (always 64 characters) at all. -/
theorem c4_uuid_counterexample :
    ∃ dp, extractRecordData [("type", "X"), ("value", "60")] [("X", ("vitals", "uuid"))]
        = some dp ∧
      dp.columns.lookup "uuid" = some "60" ∧
      ∀ msg : List Nat, dp.columns.lookup "uuid" ≠ some (sha256hex msg) := by
  refine ⟨⟨"vitals", [("uuid", "60"), ("creation_date", ""), ("start_date", ""),
    ("end_date", "")]⟩, ?_, rfl, ?_⟩
  · simp [extractRecordData, readRecordAttrs, recStep, mapInsert, List.lookup]
  · intro msg h
    have hlen := congrArg String.length (Option.some.inj h)
    rw [sha256hex_length] at hlen
    exact absurd hlen (by decide)

/-- Claim C4 witness: the amended theorem applied to a heart-rate record
with explicit dates mapped by a one-entry record map. -/
theorem c4_record_uuid_witness :
    List.lookup (attrLast [("type", "HR"), ("value", "60"),
        ("startDate", "2024-01-01 10:00:00 -0500")] "type")
        [("HR", ("vitals", "heart_rate"))] = some ("vitals", "heart_rate") ∧
    ("heart_rate" : String) ≠ "uuid" ∧
    (∃ dp, extractRecordData [("type", "HR"), ("value", "60"),
        ("startDate", "2024-01-01 10:00:00 -0500")] [("HR", ("vitals", "heart_rate"))]
        = some dp ∧ dp.table = "vitals" ∧
      dp.columns.lookup "uuid" = some (sha256hex (strBytes "vitals" ++ strBytes "heart_rate" ++
        strBytes (normalizeDate (attrLast [("type", "HR"), ("value", "60"),
          ("startDate", "2024-01-01 10:00:00 -0500")] "startDate")) ++
        strBytes (normalizeDate (attrLast [("type", "HR"), ("value", "60"),
          ("startDate", "2024-01-01 10:00:00 -0500")] "endDate")) ++
        strBytes (attrLast [("type", "HR"), ("value", "60"),
          ("startDate", "2024-01-01 10:00:00 -0500")] "value"))) ∧
      (∀ attrs2 : List (String × String),
        List.lookup (attrLast attrs2 "type") [("HR", ("vitals", "heart_rate"))]
          = some ("vitals", "heart_rate") →
        normalizeDate (attrLast attrs2 "startDate") = normalizeDate (attrLast [("type", "HR"),
          ("value", "60"), ("startDate", "2024-01-01 10:00:00 -0500")] "startDate") →
        normalizeDate (attrLast attrs2 "endDate") = normalizeDate (attrLast [("type", "HR"),
          ("value", "60"), ("startDate", "2024-01-01 10:00:00 -0500")] "endDate") →
        attrLast attrs2 "value" = attrLast [("type", "HR"), ("value", "60"),
          ("startDate", "2024-01-01 10:00:00 -0500")] "value" →
        ∃ dp2, extractRecordData attrs2 [("HR", ("vitals", "heart_rate"))] = some dp2 ∧
          dp2.columns.lookup "uuid" = dp.columns.lookup "uuid")) :=
  ⟨by decide, by decide,
    c4_record_uuid_amended [("type", "HR"), ("value", "60"),
      ("startDate", "2024-01-01 10:00:00 -0500")] [("HR", ("vitals", "heart_rate"))]
      "vitals" "heart_rate" (by decide) (by decide)⟩



-- Batch 1: association-list and buffer lemmas

lemma lookup_assocUpdate_self {β : Type} (k : String) (g : β → β) :
    ∀ l : List (String × β), (assocUpdate k g l).lookup k = (l.lookup k).map g := by
  intro l
  induction l with
  | nil => rfl
  | cons p rest ih =>
    obtain ⟨n, v⟩ := p
    by_cases h : n = k
    · subst h
      simp [assocUpdate, List.lookup]
    · simp only [assocUpdate, if_neg h, List.lookup,
        show (k == n) = false by simp [Ne.symm h]]
      exact ih

lemma lookup_assocUpdate_ne {β : Type} (k : String) (g : β → β) (t : String) (h : t ≠ k) :
    ∀ l : List (String × β), (assocUpdate k g l).lookup t = l.lookup t := by
  intro l
  induction l with
  | nil => rfl
  | cons p rest ih =>
    obtain ⟨n, v⟩ := p
    by_cases hn : n = k
    · subst hn
      simp only [assocUpdate, if_pos rfl, List.lookup,
        show (t == n) = false by simp [h]]
    · simp only [assocUpdate, if_neg hn, List.lookup]
      cases htn : (t == n)
      · exact ih
      · rfl

lemma keys_assocUpdate {β : Type} (k : String) (g : β → β) :
    ∀ l : List (String × β), (assocUpdate k g l).map Prod.fst = l.map Prod.fst := by
  intro l
  induction l with
  | nil => rfl
  | cons p rest ih =>
    obtain ⟨n, v⟩ := p
    by_cases hn : n = k
    · simp [assocUpdate, hn]
    · simp [assocUpdate, hn, ih]

lemma tableRows_dbUpdate_self (t : String) (g : List Row → List Row) :
    ∀ db : Db, tableRows (dbUpdate t g db) t = g (tableRows db t) := by
  intro db
  induction db with
  | nil => simp [dbUpdate, tableRows, List.lookup]
  | cons p rest ih =>
    obtain ⟨n, rs⟩ := p
    by_cases hn : n = t
    · subst hn
      simp [dbUpdate, tableRows, List.lookup]
    · simp only [dbUpdate, if_neg hn, tableRows, List.lookup,
        show (t == n) = false by simp [Ne.symm hn]]
      exact ih

lemma tableRows_dbUpdate_ne (t : String) (g : List Row → List Row) (t' : String)
    (h : t' ≠ t) : ∀ db : Db, tableRows (dbUpdate t g db) t' = tableRows db t' := by
  intro db
  induction db with
  | nil =>
    simp [dbUpdate, tableRows, List.lookup, show (t' == t) = false by simp [h]]
  | cons p rest ih =>
    obtain ⟨n, rs⟩ := p
    by_cases hn : n = t
    · subst hn
      simp only [dbUpdate, if_pos rfl, tableRows, List.lookup,
        show (t' == n) = false by simp [h]]
    · simp only [dbUpdate, if_neg hn, tableRows, List.lookup]
      cases htn : (t' == n)
      · exact ih
      · rfl

lemma tableRows_dbInsert (m : Manifest) (db : Db) (dp : DataPoint) (t : String) :
    tableRows (dbInsert m db dp) t =
      if dp.table = t then insertOrIgnoreRow (pkColOf m t) (tableRows db t) dp.columns
      else tableRows db t := by
  by_cases h : dp.table = t
  · rw [if_pos h, dbInsert, ← h, tableRows_dbUpdate_self]
  · rw [if_neg h, dbInsert, tableRows_dbUpdate_ne _ _ _ (fun he => h he.symm)]

-- Batch 2: insert-list and flush characterizations

lemma tableRows_insertList (m : Manifest) :
    ∀ (dps : List DataPoint) (db : Db) (t : String),
    tableRows (dps.foldl (fun db dp => dbInsert m db dp) db) t
      = tableFoldPk (pkColOf m t) (tableRows db t) (rowsFor t dps) := by
  intro dps
  induction dps with
  | nil => intro db t; rfl
  | cons dp rest ih =>
    intro db t
    simp only [List.foldl_cons]
    rw [ih]
    by_cases h : dp.table = t
    · rw [show rowsFor t (dp :: rest) = dp.columns :: rowsFor t rest by
        simp [rowsFor, List.filter_cons, h]]
      rw [show tableRows (dbInsert m db dp) t
          = insertOrIgnoreRow (pkColOf m t) (tableRows db t) dp.columns by
        rw [tableRows_dbInsert, if_pos h]]
      rfl
    · rw [show rowsFor t (dp :: rest) = rowsFor t rest by
        simp [rowsFor, List.filter_cons, h]]
      rw [show tableRows (dbInsert m db dp) t = tableRows db t by
        rw [tableRows_dbInsert, if_neg h]]

lemma lookup_eq_none_of_not_mem {β : Type} (t : String) :
    ∀ l : List (String × β), t ∉ l.map Prod.fst → l.lookup t = none := by
  intro l
  induction l with
  | nil => intro _; rfl
  | cons p rest ih =>
    intro h
    simp only [List.map_cons, List.mem_cons] at h
    push_neg at h
    simp only [List.lookup, show (t == p.1) = false by simp [h.1]]
    exact ih h.2

lemma tableRows_applyBuffers (m : Manifest) :
    ∀ (bufs : List (String × List DataPoint)) (db : Db) (t : String),
    (∀ b ∈ bufs, ∀ dp ∈ b.2, dp.table = b.1) →
    (bufs.map Prod.fst).Nodup →
    tableRows (applyBuffers m db bufs) t
      = tableFoldPk (pkColOf m t) (tableRows db t)
          (((bufs.lookup t).getD []).map (fun dp => dp.columns)) := by
  intro bufs
  induction bufs with
  | nil => intro db t _ _; rfl
  | cons b rest ih =>
    intro db t hwf hnd
    obtain ⟨n, dps⟩ := b
    simp only [List.map_cons, List.nodup_cons] at hnd
    have hwfb : ∀ dp ∈ dps, dp.table = n := fun dp hdp => hwf (n, dps) (by simp) dp hdp
    have hwfr : ∀ b ∈ rest, ∀ dp ∈ b.2, dp.table = b.1 :=
      fun b hb => hwf b (List.mem_cons_of_mem _ hb)
    show tableRows (applyBuffers m (dps.foldl (fun db dp => dbInsert m db dp) db) rest) t = _
    rw [ih (dps.foldl (fun db dp => dbInsert m db dp) db) t hwfr hnd.2]
    by_cases hnt : n = t
    · subst hnt
      have hlk : rest.lookup n = none :=
        lookup_eq_none_of_not_mem n rest hnd.1
      rw [hlk]
      simp only [List.lookup, beq_self_eq_true, Option.getD_some, List.getD]
      rw [tableRows_insertList m dps db n]
      rw [show rowsFor n dps = dps.map (fun dp => dp.columns) by
        simp only [rowsFor]
        congr 1
        exact List.filter_eq_self.mpr (fun dp hdp => by simp [hwfb dp hdp])]
      simp [tableFoldPk]
    · rw [show List.lookup t ((n, dps) :: rest) = rest.lookup t by
        simp [List.lookup, show (t == n) = false by simp [Ne.symm hnt]]]
      congr 1
      rw [tableRows_insertList m dps db t]
      rw [show rowsFor t dps = [] by
        simp only [rowsFor, List.map_eq_nil_iff, List.filter_eq_nil_iff]
        intro dp hdp
        simp [hwfb dp hdp, hnt]]
      rfl

-- Batch 3: buffer-push characterizations

lemma lookup_foldl_pushBuf :
    ∀ (dps : List DataPoint) (bufs : List (String × List DataPoint)) (t : String),
    (dps.foldl pushBuf bufs).lookup t
      = (bufs.lookup t).map (fun l => l ++ dps.filter (fun dp => dp.table = t)) := by
  intro dps
  induction dps with
  | nil =>
    intro bufs t
    simp
  | cons dp rest ih =>
    intro bufs t
    simp only [List.foldl_cons]
    rw [ih]
    by_cases h : dp.table = t
    · subst h
      rw [show pushBuf bufs dp = assocUpdate dp.table (fun l => l ++ [dp]) bufs from rfl,
        lookup_assocUpdate_self]
      simp only [List.filter_cons, show (decide (dp.table = dp.table)) = true by simp]
      cases bufs.lookup dp.table <;> simp
    · rw [show pushBuf bufs dp = assocUpdate dp.table (fun l => l ++ [dp]) bufs from rfl,
        lookup_assocUpdate_ne dp.table _ t (fun he => h he.symm)]
      simp only [List.filter_cons, show (decide (dp.table = t)) = false by simp [h]]
      cases bufs.lookup t <;> simp

lemma keys_foldl_pushBuf :
    ∀ (dps : List DataPoint) (bufs : List (String × List DataPoint)),
    (dps.foldl pushBuf bufs).map Prod.fst = bufs.map Prod.fst := by
  intro dps
  induction dps with
  | nil => intro bufs; rfl
  | cons dp rest ih =>
    intro bufs
    simp only [List.foldl_cons]
    rw [ih, show pushBuf bufs dp = assocUpdate dp.table (fun l => l ++ [dp]) bufs from rfl,
      keys_assocUpdate]

lemma wf_assocUpdate_push (dp0 : DataPoint) :
    ∀ bufs : List (String × List DataPoint),
    (∀ b ∈ bufs, ∀ dp ∈ b.2, dp.table = b.1) →
    (∀ b ∈ assocUpdate dp0.table (fun l => l ++ [dp0]) bufs, ∀ dp ∈ b.2, dp.table = b.1) := by
  intro bufs
  induction bufs with
  | nil => intro h; simp [assocUpdate]
  | cons p rest ih =>
    intro h b hb
    obtain ⟨n, v⟩ := p
    by_cases hn : n = dp0.table
    · rw [show assocUpdate dp0.table (fun l => l ++ [dp0]) ((n, v) :: rest)
          = (n, v ++ [dp0]) :: rest by simp [assocUpdate, hn]] at hb
      rcases List.mem_cons.1 hb with hb | hb
      · subst hb
        intro dp hdp
        rcases List.mem_append.1 hdp with hdp | hdp
        · exact h (n, v) (by simp) dp hdp
        · simp only [List.mem_singleton] at hdp
          subst hdp
          simp [hn]
      · exact h b (List.mem_cons_of_mem _ hb)
    · rw [show assocUpdate dp0.table (fun l => l ++ [dp0]) ((n, v) :: rest)
          = (n, v) :: assocUpdate dp0.table (fun l => l ++ [dp0]) rest by
            simp [assocUpdate, hn]] at hb
      rcases List.mem_cons.1 hb with hb | hb
      · subst hb
        exact h (n, v) (by simp)
      · exact ih (fun b' hb' => h b' (List.mem_cons_of_mem _ hb')) b hb

lemma wf_foldl_pushBuf :
    ∀ (dps : List DataPoint) (bufs : List (String × List DataPoint)),
    (∀ b ∈ bufs, ∀ dp ∈ b.2, dp.table = b.1) →
    (∀ b ∈ dps.foldl pushBuf bufs, ∀ dp ∈ b.2, dp.table = b.1) := by
  intro dps
  induction dps with
  | nil => intro bufs h; exact h
  | cons dp rest ih =>
    intro bufs h
    simp only [List.foldl_cons]
    exact ih _ (wf_assocUpdate_push dp bufs h)

lemma keys_clearBufs (bufs : List (String × List DataPoint)) :
    (clearBufs bufs).map Prod.fst = bufs.map Prod.fst := by
  simp [clearBufs]

lemma wf_clearBufs (bufs : List (String × List DataPoint)) :
    ∀ b ∈ clearBufs bufs, ∀ dp ∈ b.2, dp.table = b.1 := by
  intro b hb dp hdp
  simp only [clearBufs, List.mem_map] at hb
  obtain ⟨b0, _, rfl⟩ := hb
  simp at hdp

lemma lookup_clearBufs (bufs : List (String × List DataPoint)) (t : String) :
    ((clearBufs bufs).lookup t).getD [] = [] := by
  induction bufs with
  | nil => rfl
  | cons b rest ih =>
    simp only [clearBufs, List.map_cons, List.lookup]
    cases htb : (t == b.1)
    · exact ih
    · rfl

-- Batch 4: the no-failure run characterization

lemma flushError_noFail (bufs : List (String × List DataPoint)) :
    flushError noFail bufs = false := by
  simp [flushError, noFail]

lemma bufTotal_zero_lookup (t : String) :
    ∀ bufs : List (String × List DataPoint), bufTotal bufs = 0 →
    ((bufs.lookup t).getD []) = [] := by
  intro bufs
  induction bufs with
  | nil => intro _; rfl
  | cons b rest ih =>
    intro h
    simp only [bufTotal, List.map_cons, List.sum_cons, Nat.add_eq_zero] at h
    simp only [List.lookup]
    cases htb : (t == b.1)
    · exact ih (by simp [bufTotal, h.2])
    · simpa using List.eq_nil_of_length_eq_zero h.1

lemma lookup_isSome_of_mem {β : Type} (t : String) :
    ∀ l : List (String × β), t ∈ l.map Prod.fst → (l.lookup t).isSome := by
  intro l
  induction l with
  | nil => intro h; simp at h
  | cons p rest ih =>
    intro h
    simp only [List.map_cons, List.mem_cons] at h
    simp only [List.lookup]
    cases htb : (t == p.1)
    · rcases h with h | h
      · rw [beq_eq_false_iff_ne] at htb
        exact absurd h htb
      · exact ih h
    · rfl

lemma rowsFor_append (t : String) (a b : List DataPoint) :
    rowsFor t (a ++ b) = rowsFor t a ++ rowsFor t b := by
  simp [rowsFor, List.filter_append]

lemma rowsFor_pushable_filter (t : String) (ks : List String) :
    ∀ dps : List DataPoint,
    rowsFor t (dps.filter (fun dp => decide (dp.table ∈ ks)))
      = if t ∈ ks then rowsFor t dps else [] := by
  intro dps
  induction dps with
  | nil => simp [rowsFor]
  | cons dp rest ih =>
    by_cases hdp : dp.table ∈ ks
    · rw [show (dp :: rest).filter (fun dp => decide (dp.table ∈ ks))
          = dp :: rest.filter (fun dp => decide (dp.table ∈ ks)) by
        simp [List.filter_cons, hdp]]
      by_cases hdt : dp.table = t
      · subst hdt
        rw [show rowsFor dp.table (dp :: rest.filter (fun dp => decide (dp.table ∈ ks)))
            = dp.columns :: rowsFor dp.table (rest.filter (fun dp => decide (dp.table ∈ ks))) by
          simp [rowsFor, List.filter_cons]]
        rw [ih, if_pos hdp,
          show rowsFor dp.table (dp :: rest) = dp.columns :: rowsFor dp.table rest by
            simp [rowsFor, List.filter_cons]]
        rw [if_pos hdp]
      · rw [show rowsFor t (dp :: rest.filter (fun dp => decide (dp.table ∈ ks)))
            = rowsFor t (rest.filter (fun dp => decide (dp.table ∈ ks))) by
          simp [rowsFor, List.filter_cons, hdt]]
        rw [ih, show rowsFor t (dp :: rest) = rowsFor t rest by
          simp [rowsFor, List.filter_cons, hdt]]
    · rw [show (dp :: rest).filter (fun dp => decide (dp.table ∈ ks))
          = rest.filter (fun dp => decide (dp.table ∈ ks)) by
        simp [List.filter_cons, hdp]]
      rw [ih]
      by_cases ht : t ∈ ks
      · rw [if_pos ht, if_pos ht, show rowsFor t (dp :: rest) = rowsFor t rest by
          simp [rowsFor, List.filter_cons, show dp.table ≠ t from fun he => hdp (he ▸ ht)]]
      · rw [if_neg ht, if_neg ht]

lemma pushableDps_cons (m : Manifest) (rm : List (String × String × String))
    (ks : List String) (ev : XEvent) (rest : List XEvent) :
    pushableDps m rm ks (ev :: rest)
      = (eventDataPoints m rm ev).filter (fun dp => decide (dp.table ∈ ks))
        ++ pushableDps m rm ks rest := by
  simp [pushableDps]

lemma runEvents_noFail_db (m : Manifest) (rm : List (String × String × String)) (batch : Nat) :
    ∀ (events : List XEvent) (bufs : List (String × List DataPoint)) (total : Nat)
      (db : Db) (prog : List Nat) (t : String),
    (∀ b ∈ bufs, ∀ dp ∈ b.2, dp.table = b.1) →
    (bufs.map Prod.fst).Nodup →
    tableRows ((runEvents m rm noFail batch events bufs total db prog).db) t
      = tableFoldPk (pkColOf m t) (tableRows db t)
          (((bufs.lookup t).getD []).map (fun dp => dp.columns)
            ++ rowsFor t (pushableDps m rm (bufs.map Prod.fst) events)) := by
  intro events
  induction events with
  | nil =>
    intro bufs total db prog t hwf hnd
    rw [show rowsFor t (pushableDps m rm (bufs.map Prod.fst) []) = [] from rfl,
      List.append_nil]
    simp only [runEvents]
    by_cases hcnt : bufTotal bufs = 0
    · rw [if_pos hcnt]
      rw [bufTotal_zero_lookup t bufs hcnt]
      simp [tableFoldPk]
    · rw [if_neg hcnt]
      rw [show flushBuffers m noFail bufs db = .ok (applyBuffers m db bufs) by
        simp [flushBuffers, flushError_noFail]]
      exact tableRows_applyBuffers m bufs db t hwf hnd
  | cons ev rest ih =>
    intro bufs total db prog t hwf hnd
    have hkeys : ((eventDataPoints m rm ev).foldl pushBuf bufs).map Prod.fst
        = bufs.map Prod.fst := keys_foldl_pushBuf _ bufs
    have hwf2 : ∀ b ∈ (eventDataPoints m rm ev).foldl pushBuf bufs, ∀ dp ∈ b.2, dp.table = b.1 :=
      wf_foldl_pushBuf _ bufs hwf
    have hnd2 : (((eventDataPoints m rm ev).foldl pushBuf bufs).map Prod.fst).Nodup := by
      rw [hkeys]; exact hnd
    have hbufs2 : ((((eventDataPoints m rm ev).foldl pushBuf bufs).lookup t).getD []).map
        (fun dp => dp.columns)
        = (((bufs.lookup t).getD []).map (fun dp => dp.columns))
          ++ rowsFor t ((eventDataPoints m rm ev).filter
              (fun dp => decide (dp.table ∈ bufs.map Prod.fst))) := by
      rw [lookup_foldl_pushBuf, rowsFor_pushable_filter]
      cases hlt : bufs.lookup t with
      | none =>
        have hnm : t ∉ bufs.map Prod.fst := by
          intro hmem
          have := lookup_isSome_of_mem t bufs hmem
          rw [hlt] at this
          simp at this
        simp [hnm]
      | some l =>
        have hm : t ∈ bufs.map Prod.fst := by
          by_contra hnm
          rw [lookup_eq_none_of_not_mem t bufs hnm] at hlt
          cases hlt
        simp [hm, rowsFor]
    rw [pushableDps_cons, rowsFor_append]
    simp only [runEvents]
    by_cases hflush : needsFlush batch ((eventDataPoints m rm ev).foldl pushBuf bufs) = true
    · rw [if_pos hflush]
      rw [show flushBuffers m noFail ((eventDataPoints m rm ev).foldl pushBuf bufs) db
          = .ok (applyBuffers m db ((eventDataPoints m rm ev).foldl pushBuf bufs)) by
        simp [flushBuffers, flushError_noFail]]
      rw [ih (clearBufs ((eventDataPoints m rm ev).foldl pushBuf bufs)) _ _ _ t
        (wf_clearBufs _) (by rw [keys_clearBufs]; exact hnd2)]
      rw [lookup_clearBufs, keys_clearBufs, hkeys]
      rw [tableRows_applyBuffers m _ db t hwf2 hnd2, hbufs2]
      simp only [List.map_nil, List.nil_append, tableFoldPk, List.foldl_append,
        List.append_assoc]
    · rw [if_neg hflush]
      rw [ih ((eventDataPoints m rm ev).foldl pushBuf bufs) total db prog t hwf2 hnd2]
      rw [hbufs2, hkeys]
      simp [List.append_assoc]

-- Batch 5: INSERT OR IGNORE idempotence

lemma insertOrIgnoreRow_cases (pk : String) (rows : List Row) (r : Row) :
    insertOrIgnoreRow pk rows r = rows ∨ insertOrIgnoreRow pk rows r = rows ++ [r] := by
  unfold insertOrIgnoreRow
  cases r.lookup pk with
  | none => right; rfl
  | some v =>
    by_cases h : rows.any (fun r0 => r0.lookup pk == some v) = true
    · left; simp [h]
    · right; simp [h]

lemma mem_tableFoldPk (pk : String) :
    ∀ (L : List Row) (rows0 : List Row) (r0 : Row), r0 ∈ rows0 →
    r0 ∈ tableFoldPk pk rows0 L := by
  intro L
  induction L with
  | nil => intro rows0 r0 h; exact h
  | cons a rest ih =>
    intro rows0 r0 h
    apply ih
    rcases insertOrIgnoreRow_cases pk rows0 a with hc | hc
    · rw [hc]; exact h
    · rw [hc]; exact List.mem_append_left _ h

lemma insertOrIgnoreRow_skip (pk : String) (rows : List Row) (r : Row) (v : String)
    (hv : r.lookup pk = some v) (r0 : Row) (hm : r0 ∈ rows)
    (hr0 : r0.lookup pk = some v) : insertOrIgnoreRow pk rows r = rows := by
  unfold insertOrIgnoreRow
  rw [hv]
  show (if (rows.any fun r1 => r1.lookup pk == some v) = true then rows else rows ++ [r])
      = rows
  rw [if_pos (List.any_eq_true.2 ⟨r0, hm, by simp [hr0]⟩)]

lemma exists_pk_after (pk : String) :
    ∀ (L : List Row) (rows0 : List Row) (r : Row), r ∈ L → ∀ v : String,
    r.lookup pk = some v →
    ∃ r0 ∈ tableFoldPk pk rows0 L, r0.lookup pk = some v := by
  intro L
  induction L with
  | nil => intro rows0 r h; simp at h
  | cons a rest ih =>
    intro rows0 r hr v hv
    rw [show tableFoldPk pk rows0 (a :: rest)
        = tableFoldPk pk (insertOrIgnoreRow pk rows0 a) rest from rfl]
    rcases List.mem_cons.1 hr with hr | hr
    · subst hr
      by_cases hany : (rows0.any fun r0 => r0.lookup pk == some v) = true
      · obtain ⟨r0, hr0m, hr0v⟩ := List.any_eq_true.1 hany
        refine ⟨r0, mem_tableFoldPk pk rest _ r0 ?_, by simpa using hr0v⟩
        rcases insertOrIgnoreRow_cases pk rows0 r with hc | hc
        · rw [hc]; exact hr0m
        · rw [hc]; exact List.mem_append_left _ hr0m
      · refine ⟨r, mem_tableFoldPk pk rest _ r ?_, hv⟩
        rw [show insertOrIgnoreRow pk rows0 r = rows0 ++ [r] by
          unfold insertOrIgnoreRow
          rw [hv]
          show (if (rows0.any fun r1 => r1.lookup pk == some v) = true then rows0
              else rows0 ++ [r]) = rows0 ++ [r]
          rw [if_neg hany]]
        exact List.mem_append_right _ (by simp)
    · exact ih (insertOrIgnoreRow pk rows0 a) r hr v hv

lemma tableFoldPk_noop (pk : String) :
    ∀ (L : List Row) (rows1 : List Row),
    (∀ r ∈ L, ∃ v, r.lookup pk = some v ∧ ∃ r0 ∈ rows1, r0.lookup pk = some v) →
    tableFoldPk pk rows1 L = rows1 := by
  intro L
  induction L with
  | nil => intro rows1 _; rfl
  | cons a rest ih =>
    intro rows1 h
    obtain ⟨v, hav, r0, hr0m, hr0v⟩ := h a (by simp)
    rw [show tableFoldPk pk rows1 (a :: rest)
        = tableFoldPk pk (insertOrIgnoreRow pk rows1 a) rest from rfl,
      insertOrIgnoreRow_skip pk rows1 a v hav r0 hr0m hr0v]
    exact ih rows1 (fun r hr => h r (List.mem_cons_of_mem _ hr))

lemma tableFoldPk_idem (pk : String) (L : List Row)
    (hL : ∀ r ∈ L, (r.lookup pk).isSome) (rows0 : List Row) :
    tableFoldPk pk (tableFoldPk pk rows0 L) L = tableFoldPk pk rows0 L := by
  apply tableFoldPk_noop
  intro r hr
  obtain ⟨v, hv⟩ := Option.isSome_iff_exists.1 (hL r hr)
  exact ⟨v, hv, exists_pk_after pk L rows0 r hr v hv⟩

-- Batch 5b: the C1 assembly

lemma initBuffers_wf (m : Manifest) :
    ∀ b ∈ initBuffers m, ∀ dp ∈ b.2, dp.table = b.1 := by
  intro b hb dp hdp
  simp only [initBuffers, List.mem_map] at hb
  obtain ⟨p, _, rfl⟩ := hb
  simp at hdp

lemma initBuffers_keys_nodup (m : Manifest) (hnd : (m.tables.map Prod.fst).Nodup) :
    ((initBuffers m).map Prod.fst).Nodup := by
  have : (initBuffers m).map Prod.fst
      = (m.tables.filter (fun p => ¬p.2.columns.isEmpty)).map Prod.fst := by
    simp [initBuffers]
  rw [this]
  exact hnd.sublist (List.Sublist.map Prod.fst (List.filter_sublist m.tables))

lemma initBuffers_total (m : Manifest) : bufTotal (initBuffers m) = 0 := by
  unfold bufTotal initBuffers
  generalize m.tables.filter (fun p => ¬p.2.columns.isEmpty) = l
  induction l with
  | nil => rfl
  | cons p rest ih => simpa using ih

lemma parseAndIngest_noFail_db (m : Manifest) (events : List XEvent) (db0 : Db) (t : String)
    (hnd : (m.tables.map Prod.fst).Nodup) :
    tableRows ((parseAndIngest m noFail events db0).db) t
      = tableFoldPk (pkColOf m t) (tableRows db0 t) (rowsFor t (bufferedDps m events)) := by
  rw [parseAndIngest, runEvents_noFail_db m (buildRecordMap m) (batchSizeOf m) events
    (initBuffers m) 0 db0 [] t (initBuffers_wf m) (initBuffers_keys_nodup m hnd)]
  rw [bufTotal_zero_lookup t (initBuffers m) (initBuffers_total m)]
  rfl

/-- Claim C1, amended: re-ingesting the same file is idempotent for
every table whose staged rows all carry the table's primary-key column
(raw biometric record tables always do, via the synthetic content-hash
`uuid`); the second run leaves every such table — rows and row count —
unchanged.  Without that property (workouts and activity_summaries rows
carry no `uuid`), `INSERT OR IGNORE` re-inserts NULL-keyed rows. -/
theorem c1_reingest_idempotent (m : Manifest) (events : List XEvent) (db0 : Db) (t : String)
    (hnd : (m.tables.map Prod.fst).Nodup)
    (hpk : ∀ dp ∈ bufferedDps m events, dp.table = t →
      (dp.columns.lookup (pkColOf m t)).isSome) :
    tableRows ((parseAndIngest m noFail events
        (parseAndIngest m noFail events db0).db).db) t
      = tableRows ((parseAndIngest m noFail events db0).db) t ∧
    rowCount ((parseAndIngest m noFail events
        (parseAndIngest m noFail events db0).db).db) t
      = rowCount ((parseAndIngest m noFail events db0).db) t := by
  have hrows : ∀ r ∈ rowsFor t (bufferedDps m events), (r.lookup (pkColOf m t)).isSome := by
    intro r hr
    simp only [rowsFor, List.mem_map, List.mem_filter] at hr
    obtain ⟨dp, ⟨hdpm, hdpt⟩, rfl⟩ := hr
    exact hpk dp hdpm (by simpa using hdpt)
  have h1 := parseAndIngest_noFail_db m events db0 t hnd
  have h2 := parseAndIngest_noFail_db m events (parseAndIngest m noFail events db0).db t hnd
  have heq : tableRows ((parseAndIngest m noFail events
      (parseAndIngest m noFail events db0).db).db) t
      = tableRows ((parseAndIngest m noFail events db0).db) t := by
    rw [h2, h1, tableFoldPk_idem (pkColOf m t) _ hrows]
  exact ⟨heq, by rw [rowCount, rowCount, heq]⟩

-- Batch 6: progress monotonicity and abort-on-failure

lemma runEvents_progress_mono (m : Manifest) (rm : List (String × String × String))
    (fails : String → Row → Bool) (batch : Nat) :
    ∀ (events : List XEvent) (bufs : List (String × List DataPoint)) (total : Nat)
      (db : Db) (prog : List Nat),
    List.Chain' (· ≤ ·) prog → (∀ c ∈ prog, c ≤ total) →
    List.Chain' (· ≤ ·) (runEvents m rm fails batch events bufs total db prog).progress ∧
    (∀ n, (runEvents m rm fails batch events bufs total db prog).result = .ok n →
      total ≤ n ∧
        ∀ c ∈ (runEvents m rm fails batch events bufs total db prog).progress, c ≤ n) := by
  intro events
  induction events with
  | nil =>
    intro bufs total db prog hch hb
    simp only [runEvents]
    by_cases hcnt : bufTotal bufs = 0
    · rw [if_pos hcnt]
      exact ⟨hch, fun n hn => by
        cases hn
        exact ⟨le_refl _, hb⟩⟩
    · rw [if_neg hcnt]
      cases hfl : flushBuffers m fails bufs db with
      | error e => exact ⟨hch, fun n hn => by cases hn⟩
      | ok db2 =>
        refine ⟨hch, fun n hn => ?_⟩
        cases hn
        exact ⟨Nat.le_add_right _ _, fun c hc => le_trans (hb c hc) (Nat.le_add_right _ _)⟩
  | cons ev rest ih =>
    intro bufs total db prog hch hb
    simp only [runEvents]
    by_cases hflush : needsFlush batch ((eventDataPoints m rm ev).foldl pushBuf bufs) = true
    · rw [if_pos hflush]
      cases hfl : flushBuffers m fails ((eventDataPoints m rm ev).foldl pushBuf bufs) db with
      | error e => exact ⟨hch, fun n hn => by cases hn⟩
      | ok db2 =>
        have hch2 : List.Chain' (· ≤ ·)
            (prog ++ [total + bufTotal ((eventDataPoints m rm ev).foldl pushBuf bufs)]) := by
          rw [List.chain'_append]
          refine ⟨hch, List.chain'_singleton _, fun x hx y hy => ?_⟩
          simp only [List.head?_cons, Option.mem_def, Option.some.injEq] at hy
          subst hy
          exact le_trans (hb x (List.mem_of_mem_getLast? hx)) (Nat.le_add_right _ _)
        have hb2 : ∀ c ∈ prog ++ [total + bufTotal ((eventDataPoints m rm ev).foldl pushBuf bufs)],
            c ≤ total + bufTotal ((eventDataPoints m rm ev).foldl pushBuf bufs) := by
          intro c hc
          rcases List.mem_append.1 hc with hc | hc
          · exact le_trans (hb c hc) (Nat.le_add_right _ _)
          · simp only [List.mem_singleton] at hc
            exact hc.le
        obtain ⟨ha, hb3⟩ := ih (clearBufs ((eventDataPoints m rm ev).foldl pushBuf bufs))
          (total + bufTotal ((eventDataPoints m rm ev).foldl pushBuf bufs)) db2 _ hch2 hb2
        exact ⟨ha, fun n hn => ⟨le_trans (Nat.le_add_right _ _) (hb3 n hn).1, (hb3 n hn).2⟩⟩
    · rw [if_neg hflush]
      exact ih ((eventDataPoints m rm ev).foldl pushBuf bufs) total db prog hch hb

-- Batch 6b: every-insert-fails run leaves the database untouched

lemma flushError_allFail_false_iff (bufs : List (String × List DataPoint)) :
    flushError allFail bufs = false ↔ bufTotal bufs = 0 := by
  induction bufs with
  | nil => simp [flushError, bufTotal]
  | cons b rest ih =>
    simp only [flushError, allFail, bufTotal, List.any_cons, List.map_cons, List.sum_cons,
      Bool.or_eq_false_iff, Nat.add_eq_zero] at ih ⊢
    constructor
    · rintro ⟨h1, h2⟩
      refine ⟨?_, ih.1 h2⟩
      cases hb : b.2 with
      | nil => rfl
      | cons x xs => rw [hb] at h1; simp at h1
    · rintro ⟨h1, h2⟩
      refine ⟨?_, ih.2 h2⟩
      rw [List.eq_nil_of_length_eq_zero h1]
      rfl

lemma applyBuffers_of_empty (m : Manifest) (db : Db) :
    ∀ bufs : List (String × List DataPoint), bufTotal bufs = 0 →
    applyBuffers m db bufs = db := by
  intro bufs
  induction bufs generalizing db with
  | nil => intro _; rfl
  | cons b rest ih =>
    intro h
    simp only [bufTotal, List.map_cons, List.sum_cons, Nat.add_eq_zero] at h
    have hb : b.2 = [] := List.eq_nil_of_length_eq_zero h.1
    show applyBuffers m (b.2.foldl (fun db dp => dbInsert m db dp) db) rest = db
    rw [hb]
    exact ih db (by simp [bufTotal, h.2])

lemma runEvents_allFail (m : Manifest) (rm : List (String × String × String)) (batch : Nat) :
    ∀ (events : List XEvent) (bufs : List (String × List DataPoint)) (total : Nat)
      (db : Db) (prog : List Nat),
    (runEvents m rm allFail batch events bufs total db prog).db = db ∧
    (∀ n, (runEvents m rm allFail batch events bufs total db prog).result = .ok n →
      n = total) := by
  intro events
  induction events with
  | nil =>
    intro bufs total db prog
    simp only [runEvents]
    by_cases hcnt : bufTotal bufs = 0
    · rw [if_pos hcnt]
      exact ⟨rfl, fun n hn => by cases hn; rfl⟩
    · rw [if_neg hcnt]
      have herr : flushError allFail bufs = true := by
        cases hfe : flushError allFail bufs
        · exact absurd ((flushError_allFail_false_iff bufs).1 hfe) hcnt
        · rfl
      rw [show flushBuffers m allFail bufs db = .error "insert failed" by
        simp [flushBuffers, herr]]
      exact ⟨rfl, fun n hn => by cases hn⟩
  | cons ev rest ih =>
    intro bufs total db prog
    simp only [runEvents]
    by_cases hflush : needsFlush batch ((eventDataPoints m rm ev).foldl pushBuf bufs) = true
    · rw [if_pos hflush]
      cases hfe : flushError allFail ((eventDataPoints m rm ev).foldl pushBuf bufs) with
      | true =>
        rw [show flushBuffers m allFail ((eventDataPoints m rm ev).foldl pushBuf bufs) db
            = .error "insert failed" by simp [flushBuffers, hfe]]
        exact ⟨rfl, fun n hn => by cases hn⟩
      | false =>
        have hz : bufTotal ((eventDataPoints m rm ev).foldl pushBuf bufs) = 0 :=
          (flushError_allFail_false_iff _).1 hfe
        rw [show flushBuffers m allFail ((eventDataPoints m rm ev).foldl pushBuf bufs) db
            = .ok db by simp [flushBuffers, hfe, applyBuffers_of_empty m db _ hz]]
        rw [hz]
        simpa using ih (clearBufs ((eventDataPoints m rm ev).foldl pushBuf bufs))
          (total + 0) db (prog ++ [total + 0])
    · rw [if_neg hflush]
      exact ih ((eventDataPoints m rm ev).foldl pushBuf bufs) total db prog

lemma runEvents_abort (m : Manifest) (rm : List (String × String × String))
    (fails : String → Row → Bool) (batch : Nat) (ev : XEvent) (es : List XEvent)
    (bufs : List (String × List DataPoint)) (total : Nat) (db : Db) (prog : List Nat)
    (e : String)
    (hneed : needsFlush batch ((eventDataPoints m rm ev).foldl pushBuf bufs) = true)
    (herr : flushBuffers m fails ((eventDataPoints m rm ev).foldl pushBuf bufs) db
      = .error e) :
    runEvents m rm fails batch (ev :: es) bufs total db prog = ⟨db, prog, .error e⟩ := by
  simp only [runEvents]
  rw [if_pos hneed, herr]

/-- Claim C1 counterexample: with a manifest whose `workouts` table
declares no primary key, one workout element stages a row with no
`uuid` value; `INSERT OR IGNORE` inserts a NULL primary key both times,
so re-ingesting the same file raises the `workouts` row count from 1 to
2. -/
theorem c1_idempotence_counterexample :
    rowCount (parseAndIngest c1Manifest noFail c1Events c1Db0).db "workouts" = 1 ∧
    rowCount (parseAndIngest c1Manifest noFail c1Events
      (parseAndIngest c1Manifest noFail c1Events c1Db0).db).db "workouts" = 2 := by
  decide

/-- Claim C1 witness: the amended theorem applied to a primary-keyed
workouts manifest, whose re-ingestion is idempotent. -/
theorem c1_reingest_idempotent_witness :
    ((c1wManifest.tables.map Prod.fst).Nodup ∧
      ∀ dp ∈ bufferedDps c1wManifest c1wEvents, dp.table = "workouts" →
        (dp.columns.lookup (pkColOf c1wManifest "workouts")).isSome) ∧
    tableRows ((parseAndIngest c1wManifest noFail c1wEvents
        (parseAndIngest c1wManifest noFail c1wEvents [("workouts", [])]).db).db) "workouts"
      = tableRows ((parseAndIngest c1wManifest noFail c1wEvents
          [("workouts", [])]).db) "workouts" ∧
    rowCount ((parseAndIngest c1wManifest noFail c1wEvents
        (parseAndIngest c1wManifest noFail c1wEvents [("workouts", [])]).db).db) "workouts"
      = rowCount ((parseAndIngest c1wManifest noFail c1wEvents
          [("workouts", [])]).db) "workouts" :=
  ⟨⟨by decide, by decide⟩,
    c1_reingest_idempotent c1wManifest c1wEvents [("workouts", [])] "workouts"
      (by decide) (by decide)⟩

/-- Claim C3 counterexample: with batch size 1 and a failing insert in
the first batch, the failed batch rolls back (no row visible) but
`parse_and_ingest` aborts with the error — the second workout's batch is
never parsed or ingested, contradicting "continues with subsequent
batches". -/
theorem c3_flush_abort_counterexample :
    parseAndIngest c3Manifest c3Fails c3Events [("workouts", [])]
      = ⟨[("workouts", [])], [], .error "insert failed"⟩ ∧
    rowCount [("workouts", [])] "workouts" = 0 := by
  decide

/-- Claim C3, amended: a failing row insert rolls back its whole batch
(with a layer in which every insert fails, the final database is the
initial one, and a returned count can only be 0), and the parse ABORTS
on a failed flush: the remaining events are discarded and the error is
returned, rather than continuing with subsequent batches. -/
theorem c3_batch_rollback_abort :
    (∀ (m : Manifest) (events : List XEvent) (db0 : Db),
      (parseAndIngest m allFail events db0).db = db0 ∧
      ∀ n, (parseAndIngest m allFail events db0).result = .ok n → n = 0) ∧
    (∀ (m : Manifest) (rm : List (String × String × String))
        (fails : String → Row → Bool) (batch : Nat) (ev : XEvent) (es : List XEvent)
        (bufs : List (String × List DataPoint)) (total : Nat) (db : Db)
        (prog : List Nat) (e : String),
      needsFlush batch ((eventDataPoints m rm ev).foldl pushBuf bufs) = true →
      flushBuffers m fails ((eventDataPoints m rm ev).foldl pushBuf bufs) db = .error e →
      runEvents m rm fails batch (ev :: es) bufs total db prog = ⟨db, prog, .error e⟩) := by
  constructor
  · intro m events db0
    exact ⟨(runEvents_allFail m (buildRecordMap m) (batchSizeOf m) events
        (initBuffers m) 0 db0 []).1,
      fun n hn => (runEvents_allFail m (buildRecordMap m) (batchSizeOf m) events
        (initBuffers m) 0 db0 []).2 n hn⟩
  · intro m rm fails batch ev es bufs total db prog e hneed herr
    exact runEvents_abort m rm fails batch ev es bufs total db prog e hneed herr

/-- Claim C3 witness: both parts applied at the concrete two-workout
input with batch size 1. -/
theorem c3_batch_rollback_abort_witness :
    ((parseAndIngest c3Manifest allFail c3Events [("workouts", [])]).db
      = [("workouts", [])]) ∧
    runEvents c3Manifest (buildRecordMap c3Manifest) c3Fails 1
        [.workout [("duration", "30")] [], .workout [("duration", "45")] []]
        (initBuffers c3Manifest) 0 [("workouts", [])] []
      = ⟨[("workouts", [])], [], .error "insert failed"⟩ :=
  ⟨(c3_batch_rollback_abort.1 c3Manifest c3Events [("workouts", [])]).1,
    c3_batch_rollback_abort.2 c3Manifest (buildRecordMap c3Manifest) c3Fails 1
      (.workout [("duration", "30")] []) [.workout [("duration", "45")] []]
      (initBuffers c3Manifest) 0 [("workouts", [])] [] "insert failed"
      (by decide) (by decide)⟩

/-- Claim C8 counterexample: with one workout under the default batch
size, the only flush is the residual one after EOF; it writes the row
(the run returns 1) but `on_progress` is never invoked — the claim's
"including the residual flush" fails. -/
theorem c8_progress_counterexample :
    (parseAndIngest c8Manifest noFail c8Events c1Db0).progress = [] ∧
    (parseAndIngest c8Manifest noFail c8Events c1Db0).result = .ok 1 ∧
    rowCount (parseAndIngest c8Manifest noFail c8Events c1Db0).db "workouts" = 1 := by
  decide

/-- Claim C8, amended: `parse_and_ingest` invokes `on_progress` with the
cumulative record total after each capacity-triggered flush — but not
after the residual flush following EOF — and the reported counts are
monotonically non-decreasing and bounded by the returned total. -/
theorem c8_progress_monotone (m : Manifest) (fails : String → Row → Bool)
    (events : List XEvent) (db0 : Db) :
    List.Chain' (· ≤ ·) (parseAndIngest m fails events db0).progress ∧
    ∀ n, (parseAndIngest m fails events db0).result = .ok n →
      ∀ c ∈ (parseAndIngest m fails events db0).progress, c ≤ n := by
  obtain ⟨h1, h2⟩ := runEvents_progress_mono m (buildRecordMap m) fails (batchSizeOf m)
    events (initBuffers m) 0 db0 [] (List.chain'_nil) (by simp)
  exact ⟨h1, fun n hn => (h2 n hn).2⟩

/-- Claim C8 witness: with batch size 1 and two workouts, the progress
calls are [1, 2], which the amended theorem certifies as monotone and
bounded by the returned total 2. -/
theorem c8_progress_monotone_witness :
    (parseAndIngest c8wManifest noFail c8wEvents [("workouts", [])]).progress = [1, 2] ∧
    List.Chain' (· ≤ ·)
      (parseAndIngest c8wManifest noFail c8wEvents [("workouts", [])]).progress ∧
    ∀ c ∈ (parseAndIngest c8wManifest noFail c8wEvents [("workouts", [])]).progress,
      c ≤ 2 :=
  ⟨by decide,
    (c8_progress_monotone c8wManifest noFail c8wEvents [("workouts", [])]).1,
    (c8_progress_monotone c8wManifest noFail c8wEvents [("workouts", [])]).2 2 (by decide)⟩

lemma lookup_append_one_ne {β : Type} (k : String) (v : β) (s : String) (h : s ≠ k) :
    ∀ l : List (String × β), (l ++ [(k, v)]).lookup s = l.lookup s := by
  intro l
  induction l with
  | nil => simp [List.lookup, show (s == k) = false by simp [h]]
  | cons p rest ih =>
    simp only [List.cons_append, List.lookup]
    cases hsp : (s == p.1)
    · exact ih
    · rfl

lemma lookup_ensureSchemaTable_ne (t : String) (cfg : TableConfig) (s : String)
    (h : s ≠ t) (db : SchemaDb) :
    (ensureSchemaTable t cfg db).lookup s = db.lookup s := by
  unfold ensureSchemaTable
  have h1 : ∀ db' : SchemaDb, (createIfNotExists t (baseCols (pkOf cfg).1 (pkOf cfg).2) db').lookup s
      = db'.lookup s := by
    intro db'
    unfold createIfNotExists
    split
    · rfl
    · exact lookup_append_one_ne t _ s h db'
  have h2 : ∀ (cols : List ColumnDefinition) (existing : List String) (db' : SchemaDb),
      (cols.foldl (fun db c =>
        if c.field_name ∈ existing then db else alterAddColumn t (mkSchemaCol c) db) db').lookup s
      = db'.lookup s := by
    intro cols
    induction cols with
    | nil => intro _ db'; rfl
    | cons c rest ih =>
      intro existing db'
      simp only [List.foldl_cons]
      rw [ih]
      by_cases hc : c.field_name ∈ existing
      · rw [if_pos hc]
      · rw [if_neg hc]
        exact lookup_assocUpdate_ne t _ s h db'
  rw [h2, h1]

lemma lookup_foldAdd_self (t : String) (existing : List String) :
    ∀ (cols : List ColumnDefinition) (db : SchemaDb) (st : TableState),
    db.lookup t = some st →
    (cols.foldl (fun db c =>
      if c.field_name ∈ existing then db else alterAddColumn t (mkSchemaCol c) db) db).lookup t
    = some ⟨st.columns ++ (cols.filter (fun c => c.field_name ∉ existing)).map mkSchemaCol,
        st.rows⟩ := by
  intro cols
  induction cols with
  | nil => intro db st hex; simpa using hex
  | cons c rest ih =>
    intro db st hex
    simp only [List.foldl_cons]
    by_cases hc : c.field_name ∈ existing
    · rw [if_pos hc, ih db st hex,
        show (c :: rest).filter (fun c => c.field_name ∉ existing)
          = rest.filter (fun c => c.field_name ∉ existing) by simp [List.filter_cons, hc]]
    · rw [if_neg hc]
      have hex2 : (alterAddColumn t (mkSchemaCol c) db).lookup t
          = some ⟨st.columns ++ [mkSchemaCol c], st.rows⟩ := by
        unfold alterAddColumn
        rw [lookup_assocUpdate_self, hex]
        rfl
      rw [ih _ _ hex2,
        show (c :: rest).filter (fun c => c.field_name ∉ existing)
          = c :: rest.filter (fun c => c.field_name ∉ existing) by simp [List.filter_cons, hc]]
      simp

lemma lookup_ensureSchemaTable_self (t : String) (cfg : TableConfig) (db : SchemaDb)
    (st : TableState) (hex : db.lookup t = some st) :
    (ensureSchemaTable t cfg db).lookup t
      = some ⟨st.columns ++ (cfg.columns.filter
          (fun c => c.field_name ∉ st.columns.map (fun sc => sc.name))).map mkSchemaCol,
        st.rows⟩ := by
  unfold ensureSchemaTable
  have hdb1 : createIfNotExists t (baseCols (pkOf cfg).1 (pkOf cfg).2) db = db := by
    unfold createIfNotExists
    rw [if_pos (by simp [hex])]
  rw [hdb1]
  simp only [hex, Option.getD_some]
  exact lookup_foldAdd_self t _ cfg.columns db st hex

lemma lookup_ensureSchema_fold_ne (s : String) :
    ∀ (tables : List (String × TableConfig)) (db : SchemaDb),
    s ∉ tables.map Prod.fst →
    (tables.foldl (fun db p => ensureSchemaTable p.1 p.2 db) db).lookup s = db.lookup s := by
  intro tables
  induction tables with
  | nil => intro db _; rfl
  | cons p rest ih =>
    intro db hs
    simp only [List.map_cons, List.mem_cons] at hs
    push_neg at hs
    simp only [List.foldl_cons]
    rw [ih _ hs.2, lookup_ensureSchemaTable_ne p.1 p.2 s hs.1 db]

lemma lookup_ensureSchema_fold_self (t : String) (cfg : TableConfig) :
    ∀ (tables : List (String × TableConfig)) (db0 : SchemaDb) (st : TableState),
    (tables.map Prod.fst).Nodup → (t, cfg) ∈ tables → db0.lookup t = some st →
    (tables.foldl (fun db p => ensureSchemaTable p.1 p.2 db) db0).lookup t
      = some ⟨st.columns ++ (cfg.columns.filter
          (fun c => c.field_name ∉ st.columns.map (fun sc => sc.name))).map mkSchemaCol,
        st.rows⟩ := by
  intro tables
  induction tables with
  | nil => intro db0 st _ hmem; simp at hmem
  | cons p rest ih =>
    intro db0 st hnd hmem hex
    simp only [List.map_cons, List.nodup_cons] at hnd
    simp only [List.foldl_cons]
    rcases List.mem_cons.1 hmem with hp | hp
    · rw [← hp]
      rw [lookup_ensureSchema_fold_ne t rest _ (by rw [← hp] at hnd; exact hnd.1)]
      exact lookup_ensureSchemaTable_self t cfg db0 st hex
    · have hne : t ≠ p.1 := by
        intro he
        exact hnd.1 (he ▸ (List.mem_map.2 ⟨(t, cfg), hp, by rw [he]⟩))
      have hex2 : (ensureSchemaTable p.1 p.2 db0).lookup t = some st := by
        rw [lookup_ensureSchemaTable_ne p.1 p.2 t hne db0]
        exact hex
      exact ih _ st hnd.2 hp hex2

/-- Claim C9: schema reconciliation only adds.  For a manifest table
that already exists, the reconciled column list is exactly the existing
columns (manifest-declared or not, all kept, in place) followed by the
manifest columns whose names were missing, each carrying its declared
type and its GENERATED ALWAYS AS expression when one is given; the rows
are untouched; tables outside the manifest are untouched. -/
theorem c9_schema_reconciliation (m : Manifest) (db0 : SchemaDb) (t : String)
    (cfg : TableConfig) (st : TableState)
    (hnd : (m.tables.map Prod.fst).Nodup)
    (hmem : (t, cfg) ∈ m.tables)
    (hex : db0.lookup t = some st) :
    (ensureSchema m db0).lookup t
      = some ⟨st.columns ++ (cfg.columns.filter
          (fun c => c.field_name ∉ st.columns.map (fun sc => sc.name))).map mkSchemaCol,
        st.rows⟩ ∧
    (∀ s, s ∉ m.tables.map Prod.fst → (ensureSchema m db0).lookup s = db0.lookup s) :=
  ⟨lookup_ensureSchema_fold_self t cfg m.tables db0 st hnd hmem hex,
    fun s hs => lookup_ensureSchema_fold_ne s m.tables db0 hs⟩

/-- Claim C9 witness: reconciling the one-table manifest against a
database holding extra data adds only `hr_zone` (with its generated
expression), keeps `legacy` and the data row, and leaves an unrelated
table name untouched. -/
theorem c9_schema_reconciliation_witness :
    ((c9M.tables.map Prod.fst).Nodup ∧ ("vitals", c9Cfg) ∈ c9M.tables ∧
      c9Db0.lookup "vitals" = some c9St) ∧
    (ensureSchema c9M c9Db0).lookup "vitals"
      = some ⟨c9St.columns ++ (c9Cfg.columns.filter
          (fun c => c.field_name ∉ c9St.columns.map (fun sc => sc.name))).map mkSchemaCol,
        c9St.rows⟩ ∧
    (ensureSchema c9M c9Db0).lookup "workouts" = c9Db0.lookup "workouts" :=
  ⟨⟨by decide, by decide, by decide⟩,
    (c9_schema_reconciliation c9M c9Db0 "vitals" c9Cfg c9St
      (by decide) (by decide) (by decide)).1,
    (c9_schema_reconciliation c9M c9Db0 "vitals" c9Cfg c9St
      (by decide) (by decide) (by decide)).2 "workouts" (by decide)⟩

end HealthDashboard
